import Mathlib

/-!
Verification development for the provider transaction synchronization engine
(`business/plaid_sync/service.py`, `business/plaid_sync/mappers.py` and the
`database/supabase` repository modules they call).

The embedding is a shallow one: every repository operation becomes a pure
function on an explicit database state `DB`; the per-unit-of-work transaction
boundary of the Python code (one psycopg2 connection, commit or rollback)
becomes explicit state passing in which a failed unit of work discards its
working copy of the state; storage faults are injected through an operation
counter carried by the connection value.  Timestamps (`CURRENT_TIMESTAMP`)
are modelled by a logical clock `DB.now` which the claims never inspect.
-/

namespace Chippr

/-! ## Provider-side shapes (Plaid SDK objects as consumed by the mappers) -/

structure PlaidBalances where
  current : Option Rat
  available : Option Rat
deriving DecidableEq, Repr

structure PlaidAccount where
  account_id : String
  name : Option String
  official_name : Option String
  mask : Option String
  type : Option String
  subtype : Option String
  balances : Option PlaidBalances
deriving DecidableEq, Repr

structure PlaidPFC where
  primary : Option String
deriving DecidableEq, Repr

structure PlaidTxn where
  transaction_id : Option String
  pending_transaction_id : Option String
  account_id : String
  amount : Rat
  iso_currency_code : Option String
  merchant_name : Option String
  name : Option String
  personal_finance_category : Option PlaidPFC
  transaction_type : Option String
  authorized_date : Option Nat
  date : Option Nat
  pending : Bool
deriving DecidableEq, Repr

structure PlaidRemoved where
  transaction_id : String
deriving DecidableEq, Repr

/-! ## Mapper outputs (the Python dicts built in `mappers.py`) -/

structure AccountFields where
  user_id : String
  plaid_item_id : String
  plaid_account_id : String
  name : Option String
  official_name : Option String
  mask : Option String
  type : Option String
  subtype : Option String
  current_balance : Option Rat
  available_balance : Option Rat
deriving DecidableEq, Repr

structure TxFields where
  account_id : String
  external_txn_id : Option String
  amount : Rat
  currency : Option String
  type : String
  merchant_name : Option String
  description : Option String
  category : Option String
  authorized_date : Option Nat
  posted_date : Option Nat
  pending : Bool
  original_payer_user_id : Option String
deriving DecidableEq, Repr

/-! ## String helpers: Python's `"INCOME" in s.upper()` substring test -/

def startsWithChars : List Char → List Char → Bool
  | [], _ => true
  | _ :: _, [] => false
  | p :: ps, c :: cs => p == c && startsWithChars ps cs

def containsChars (s pat : List Char) : Bool :=
  match s with
  | [] => startsWithChars pat []
  | _ :: cs => startsWithChars pat s || containsChars cs pat

def strContains (s pat : String) : Bool :=
  containsChars s.data pat.data

/-- Python's `str.upper`, character by character. -/
def upperStr (s : String) : String :=
  ⟨s.data.map Char.toUpper⟩

/-! ## Field Mapper (`business/plaid_sync/mappers.py`) -/

def map_plaid_account_to_db_fields (user_id plaid_item_id : String)
    (account : PlaidAccount) : AccountFields :=
  let current := account.balances.bind (·.current)
  let available := account.balances.bind (·.available)
  { user_id := user_id
    plaid_item_id := plaid_item_id
    plaid_account_id := account.account_id
    name := account.name
    official_name := account.official_name
    mask := account.mask
    type := account.type
    subtype := account.subtype
    current_balance := current
    available_balance := available }

/-- Embeds `_infer_tx_type`.  A Python `if personal_finance_primary:`
truthiness test is `some s` with `s` nonempty. -/
def infer_tx_type (amount : Rat) (personal_finance_primary : Option String)
    (_transaction_type : Option String) : String :=
  if amount < 0 then "credit"
  else if amount > 0 then "debit"
  else
    match personal_finance_primary with
    | some primary =>
        if primary ≠ "" then
          if strContains (upperStr primary) "INCOME" then "credit" else "debit"
        else "debit"
    | none => "debit"

def pfcPrimary (t : PlaidTxn) : Option String :=
  match t.personal_finance_category with
  | some pfc => pfc.primary
  | none => none

def map_plaid_transaction_to_db_fields (account_id : String) (t : PlaidTxn)
    (account_owner_user_id : String) : TxFields :=
  let raw_amount := t.amount
  let abs_amount := |raw_amount|
  let tx_type := infer_tx_type raw_amount (pfcPrimary t) t.transaction_type
  { account_id := account_id
    external_txn_id := t.transaction_id
    amount := abs_amount
    currency := t.iso_currency_code
    type := tx_type
    merchant_name := t.merchant_name
    description := t.name
    category := none
    authorized_date := t.authorized_date
    posted_date := t.date
    pending := t.pending
    original_payer_user_id := some account_owner_user_id }

/-! ## Database rows and state -/

structure AccountRow where
  id : String
  user_id : String
  plaid_item_id : String
  plaid_account_id : String
  name : Option String
  official_name : Option String
  mask : Option String
  type : Option String
  subtype : Option String
  current_balance : Option Rat
  available_balance : Option Rat
  updated_at : Nat
deriving DecidableEq, Repr

structure TxnRow where
  id : Nat
  account_id : String
  external_txn_id : Option String
  amount : Rat
  currency : Option String
  type : String
  merchant_name : Option String
  description : Option String
  category : Option String
  authorized_date : Option Nat
  posted_date : Option Nat
  pending : Bool
  original_payer_user_id : Option String
  deleted_at : Option Nat
  created_at : Nat
  updated_at : Nat
deriving DecidableEq, Repr

structure SyncStateRow where
  plaid_item_id : String
  transactions_cursor : Option String
  accounts_last_synced_at : Option Nat
  updated_at : Nat
deriving DecidableEq, Repr

structure PlaidItemRow where
  id : String
  user_id : String
  item_id : String
  is_active : Bool
deriving DecidableEq, Repr

structure DB where
  accounts : List AccountRow
  transactions : List TxnRow
  sync_states : List SyncStateRow
  plaid_items : List PlaidItemRow
  nextAccountId : Nat
  nextTxnId : Nat
  now : Nat
deriving DecidableEq, Repr

/-! ## Repository operations (`database/supabase/...`), as pure state functions -/

/-- `account.upsert_plaid_account`: `INSERT ... ON CONFLICT (plaid_account_id)
DO UPDATE`, returning the row id. -/
def upsert_plaid_account (db : DB) (f : AccountFields) : DB × String :=
  match db.accounts.find? (fun a => a.plaid_account_id == f.plaid_account_id) with
  | some a =>
      ({ db with
          accounts := db.accounts.map (fun r =>
            if r.plaid_account_id == f.plaid_account_id then
              { r with
                  user_id := f.user_id
                  plaid_item_id := f.plaid_item_id
                  name := f.name
                  official_name := f.official_name
                  mask := f.mask
                  type := f.type
                  subtype := f.subtype
                  current_balance := f.current_balance
                  available_balance := f.available_balance
                  updated_at := db.now }
            else r) },
        a.id)
  | none =>
      let rowId := toString db.nextAccountId
      ({ db with
          accounts := db.accounts ++
            [{ id := rowId
               user_id := f.user_id
               plaid_item_id := f.plaid_item_id
               plaid_account_id := f.plaid_account_id
               name := f.name
               official_name := f.official_name
               mask := f.mask
               type := f.type
               subtype := f.subtype
               current_balance := f.current_balance
               available_balance := f.available_balance
               updated_at := db.now }]
          nextAccountId := db.nextAccountId + 1 },
        rowId)

/-- `account.get_account_id_by_plaid_account_id`. -/
def get_account_id_by_plaid_account_id (db : DB)
    (user_id plaid_item_id plaid_account_id : String) : Option String :=
  (db.accounts.find? (fun a =>
    a.user_id == user_id && a.plaid_item_id == plaid_item_id &&
      a.plaid_account_id == plaid_account_id)).map (·.id)

/-- `transaction.upsert_transaction_added`: `INSERT ... ON CONFLICT
(external_txn_id) DO UPDATE ... , deleted_at = NULL`.  The conflict can only
fire for a non-null external id. -/
def upsert_transaction_added (db : DB) (data : TxFields) : DB :=
  let insertNew : DB :=
    { db with
        transactions := db.transactions ++
          [{ id := db.nextTxnId
             account_id := data.account_id
             external_txn_id := data.external_txn_id
             amount := data.amount
             currency := data.currency
             type := data.type
             merchant_name := data.merchant_name
             description := data.description
             category := data.category
             authorized_date := data.authorized_date
             posted_date := data.posted_date
             pending := data.pending
             original_payer_user_id := data.original_payer_user_id
             deleted_at := none
             created_at := db.now
             updated_at := db.now }]
        nextTxnId := db.nextTxnId + 1 }
  match data.external_txn_id with
  | some e =>
      if db.transactions.any (fun t => t.external_txn_id == some e) then
        { db with
            transactions := db.transactions.map (fun t =>
              if t.external_txn_id == some e then
                { t with
                    account_id := data.account_id
                    amount := data.amount
                    currency := data.currency
                    type := data.type
                    merchant_name := data.merchant_name
                    description := data.description
                    category := data.category
                    authorized_date := data.authorized_date
                    posted_date := data.posted_date
                    pending := data.pending
                    original_payer_user_id := data.original_payer_user_id
                    updated_at := db.now
                    deleted_at := none }
              else t) }
      else insertNew
  | none => insertNew

/-- `transaction.apply_transaction_modified`: `UPDATE ... WHERE
external_txn_id = %s` (a NULL parameter matches nothing in SQL). -/
def apply_transaction_modified (db : DB) (data : TxFields) : DB :=
  match data.external_txn_id with
  | none => db
  | some e =>
      { db with
          transactions := db.transactions.map (fun t =>
            if t.external_txn_id == some e then
              { t with
                  amount := data.amount
                  currency := data.currency
                  type := data.type
                  merchant_name := data.merchant_name
                  description := data.description
                  category := data.category
                  authorized_date := data.authorized_date
                  posted_date := data.posted_date
                  pending := data.pending
                  updated_at := db.now }
            else t) }

/-- Row predicate of `apply_transaction_removed`: the transaction joins to an
account owned by the user and its external id is in the removed list. -/
def removedMatches (db : DB) (user_id : String) (ids : List String)
    (t : TxnRow) : Bool :=
  db.accounts.any (fun a => a.id == t.account_id && a.user_id == user_id) &&
    (match t.external_txn_id with
     | some e => ids.contains e
     | none => false)

/-- `transaction.apply_transaction_removed`: soft delete
(`deleted_at = COALESCE(deleted_at, CURRENT_TIMESTAMP)`), returning the SQL
rowcount.  An empty id list short-circuits without touching storage. -/
def apply_transaction_removed (db : DB) (user_id : String)
    (ids : List String) : DB × Nat :=
  if ids.isEmpty then (db, 0)
  else
    let rowcount := db.transactions.countP (fun t => removedMatches db user_id ids t)
    ({ db with
        transactions := db.transactions.map (fun t =>
          if removedMatches db user_id ids t then
            { t with
                deleted_at := match t.deleted_at with
                  | some d => some d
                  | none => some db.now
                updated_at := db.now }
          else t) },
      rowcount)

/-- `transaction.relink_pending_to_posted`: rewrite the row found under the
pending external id to carry the posted id, the posted fields and
`pending = FALSE`; returns whether any row matched. -/
def relink_pending_to_posted (db : DB) (pending_id posted_id : String)
    (data : TxFields) : DB × Bool :=
  let matched := db.transactions.countP (fun t => t.external_txn_id == some pending_id)
  ({ db with
      transactions := db.transactions.map (fun t =>
        if t.external_txn_id == some pending_id then
          { t with
              external_txn_id := some posted_id
              amount := data.amount
              currency := data.currency
              type := data.type
              merchant_name := data.merchant_name
              description := data.description
              category := data.category
              authorized_date := data.authorized_date
              posted_date := data.posted_date
              pending := false
              updated_at := db.now }
        else t) },
    decide (0 < matched))

/-- The per-row rewrite `relink_pending_to_posted` applies to the rows found
under the pending id (named so proofs can speak about the mapped table). -/
def relinkUpd (data : TxFields) (now : Nat) (pending_id posted_id : String)
    (t : TxnRow) : TxnRow :=
  if t.external_txn_id == some pending_id then
    { t with
        external_txn_id := some posted_id
        amount := data.amount
        currency := data.currency
        type := data.type
        merchant_name := data.merchant_name
        description := data.description
        category := data.category
        authorized_date := data.authorized_date
        posted_date := data.posted_date
        pending := false
        updated_at := now }
  else t

/-- `plaid_item_sync_state.get_or_create_sync_state`:
`INSERT ... ON CONFLICT (plaid_item_id) DO UPDATE SET updated_at = now`
returning the row. -/
def get_or_create_sync_state (db : DB) (plaid_item_id : String) :
    DB × SyncStateRow :=
  match db.sync_states.find? (fun s => s.plaid_item_id == plaid_item_id) with
  | some s =>
      let s' := { s with updated_at := db.now }
      ({ db with
          sync_states := db.sync_states.map (fun r =>
            if r.plaid_item_id == plaid_item_id then { r with updated_at := db.now }
            else r) },
        s')
  | none =>
      let s : SyncStateRow :=
        { plaid_item_id := plaid_item_id
          transactions_cursor := none
          accounts_last_synced_at := none
          updated_at := db.now }
      ({ db with sync_states := db.sync_states ++ [s] }, s)

/-- `plaid_item_sync_state.update_accounts_last_synced_at`. -/
def update_accounts_last_synced_at (db : DB) (plaid_item_id : String) : DB :=
  { db with
      sync_states := db.sync_states.map (fun s =>
        if s.plaid_item_id == plaid_item_id then
          { s with accounts_last_synced_at := some db.now, updated_at := db.now }
        else s) }

/-- `plaid_item_sync_state.update_sync_cursor`. -/
def update_sync_cursor (db : DB) (plaid_item_id : String)
    (next_cursor : Option String) : DB :=
  { db with
      sync_states := db.sync_states.map (fun s =>
        if s.plaid_item_id == plaid_item_id then
          { s with transactions_cursor := next_cursor, updated_at := db.now }
        else s) }

/-- The stored cursor for an item (`none` both for a null cursor and for a
missing sync-state row, matching how `sync_item` starts from null). -/
def getCursor (db : DB) (plaid_item_id : String) : Option String :=
  match db.sync_states.find? (fun s => s.plaid_item_id == plaid_item_id) with
  | some s => s.transactions_cursor
  | none => none

def stateRowExists (db : DB) (plaid_item_id : String) : Bool :=
  db.sync_states.any (fun s => s.plaid_item_id == plaid_item_id)

/-- Number of transaction rows carrying a given external id (deleted or not). -/
def countExt (db : DB) (e : String) : Nat :=
  db.transactions.countP (fun t => t.external_txn_id == some e)

/-- Number of non-deleted transaction rows carrying a given external id. -/
def countExtLive (db : DB) (e : String) : Nat :=
  db.transactions.countP (fun t => t.external_txn_id == some e && t.deleted_at == none)

/-! ## Service layer (`business/plaid_sync/service.py`)

Each unit of work runs on a `Conn`: a working copy of the database plus a
storage-fault oracle (`failAt = some n` makes the n-th storage operation of
this unit raise).  A raised unit of work discards the working copy, which is
the rollback of the Python `conn.rollback()`. -/

structure SyncSummary where
  plaid_item_id : String
  accounts_upserted : Nat
  tx_added : Nat
  tx_modified : Nat
  tx_removed : Nat
  has_more : Bool
  error_code : Option String
  error_message : Option String
deriving DecidableEq, Repr

structure Counts where
  tx_added : Nat
  tx_modified : Nat
  tx_removed : Nat
deriving DecidableEq, Repr

structure Conn where
  db : DB
  opIdx : Nat
  failAt : Option Nat
deriving DecidableEq, Repr

/-- Run one storage operation on the connection; a fault raises before the
operation takes effect. -/
def Conn.step (c : Conn) (f : DB → DB × α) : Except Unit (Conn × α) :=
  if c.failAt == some c.opIdx then .error ()
  else
    let r := f c.db
    .ok ({ c with db := r.1, opIdx := c.opIdx + 1 }, r.2)

/-- Fault model for one `sync_item` invocation: a fault position inside the
account phase, a flag making the cursor-load unit raise, and per-page fault
positions for the delta pages (page numbers start at 1). -/
structure FaultSpec where
  accountsFail : Option Nat
  cursorLoadFail : Bool
  pageFail : Nat → Option Nat

def noFaults : FaultSpec :=
  { accountsFail := none, cursorLoadFail := false, pageFail := fun _ => none }

/-- Provider client behaviour (`integrations/plaid.py` is an external
collaborator; errors it signals are `PlaidAPIError`s carrying a message). -/
structure PageResult where
  added : List PlaidTxn
  modified : List PlaidTxn
  removed : List PlaidRemoved
  next_cursor : Option String
  has_more : Bool
deriving DecidableEq, Repr

structure PlaidClientModel where
  get_accounts : String → String → Except String (List PlaidAccount)
  transactions_sync_page : String → String → Option String → Except String PageResult

/-! ### Phase A — account reconciliation -/

/-- The upsert loop of the account phase; on a storage fault the accumulated
`accounts_upserted` counter (already incremented for the successful calls) is
surfaced with the error, exactly as the Python local variable survives the
exception. -/
def runAccountsUpserts (user_id plaid_item_id : String) :
    List PlaidAccount → Conn → Nat → Except Nat (Conn × Nat)
  | [], c, acc => .ok (c, acc)
  | a :: rest, c, acc =>
      match c.step (fun db =>
        upsert_plaid_account db (map_plaid_account_to_db_fields user_id plaid_item_id a)) with
      | .error _ => .error acc
      | .ok (c', _) => runAccountsUpserts user_id plaid_item_id rest c' (acc + 1)

/-- The whole account-reconciliation unit of work: `get_or_create_sync_state`,
the upserts, `update_accounts_last_synced_at`, then commit.  An error carries
the counter value at the fault. -/
def accountsPhase (user_id plaid_item_id : String) (accts : List PlaidAccount)
    (db : DB) (failAt : Option Nat) : Except Nat (DB × Nat) :=
  match Conn.step { db := db, opIdx := 0, failAt := failAt }
      (fun db => get_or_create_sync_state db plaid_item_id) with
  | .error _ => .error 0
  | .ok (c1, _) =>
      match runAccountsUpserts user_id plaid_item_id accts c1 0 with
      | .error n => .error n
      | .ok (c2, n) =>
          match c2.step (fun db => (update_accounts_last_synced_at db plaid_item_id, ())) with
          | .error _ => .error n
          | .ok (c3, _) => .ok (c3.db, n)

/-! ### Phase B — one transaction delta page as a unit of work -/

/-- Python truthiness of `pending_id and posted_id`. -/
def bothIdsPresent (t : PlaidTxn) : Bool :=
  match t.pending_transaction_id, t.transaction_id with
  | some p, some q => p != "" && q != ""
  | _, _ => false

/-- The fall-through upsert of an added record (`upsert_transaction_added`
followed by `tx_added += 1`). -/
def addedUpsertStep (tx_data : TxFields) (c : Conn) (k : Counts) :
    Except Counts (Conn × Counts) :=
  match c.step (fun db => (upsert_transaction_added db tx_data, ())) with
  | .error _ => .error k
  | .ok (c2, _) => .ok (c2, { k with tx_added := k.tx_added + 1 })

/-- One record of the `added` list: resolve the owning account (skip silently
when absent), otherwise relink pending→posted when both ids are present, else
upsert by external id. -/
def processAdded1 (user_id plaid_item_id : String) (t : PlaidTxn) (c : Conn)
    (k : Counts) : Except Counts (Conn × Counts) :=
  match c.step (fun db =>
    (db, get_account_id_by_plaid_account_id db user_id plaid_item_id t.account_id)) with
  | .error _ => .error k
  | .ok (c1, acctId) =>
      match acctId with
      | none => .ok (c1, k)
      | some aid =>
          match t.pending_transaction_id, t.transaction_id with
          | some pending_id, some posted_id =>
              if pending_id != "" && posted_id != "" then
                match c1.step (fun db => relink_pending_to_posted db pending_id
                    posted_id (map_plaid_transaction_to_db_fields aid t user_id)) with
                | .error _ => .error k
                | .ok (c2, relinked) =>
                    if relinked then
                      .ok (c2, { k with tx_modified := k.tx_modified + 1 })
                    else addedUpsertStep (map_plaid_transaction_to_db_fields aid t user_id) c2 k
              else addedUpsertStep (map_plaid_transaction_to_db_fields aid t user_id) c1 k
          | _, _ => addedUpsertStep (map_plaid_transaction_to_db_fields aid t user_id) c1 k

def processAddedList (user_id plaid_item_id : String) :
    List PlaidTxn → Conn → Counts → Except Counts (Conn × Counts)
  | [], c, k => .ok (c, k)
  | t :: ts, c, k =>
      match processAdded1 user_id plaid_item_id t c k with
      | .error k' => .error k'
      | .ok (c', k') => processAddedList user_id plaid_item_id ts c' k'

/-- The dict built for a modified record: the mapper output (with the empty
string standing for the ignored `account_id`), its external id re-set from
the record (`tx_data["external_txn_id"] = t.transaction_id`). -/
def modifiedTxData (user_id : String) (t : PlaidTxn) : TxFields :=
  { map_plaid_transaction_to_db_fields "" t user_id with
      external_txn_id := t.transaction_id }

def processModified1 (user_id : String) (t : PlaidTxn) (c : Conn) (k : Counts) :
    Except Counts (Conn × Counts) :=
  match c.step (fun db => (apply_transaction_modified db (modifiedTxData user_id t), ())) with
  | .error _ => .error k
  | .ok (c1, _) => .ok (c1, { k with tx_modified := k.tx_modified + 1 })

def processModifiedList (user_id : String) :
    List PlaidTxn → Conn → Counts → Except Counts (Conn × Counts)
  | [], c, k => .ok (c, k)
  | t :: ts, c, k =>
      match processModified1 user_id t c k with
      | .error k' => .error k'
      | .ok (c', k') => processModifiedList user_id ts c' k'

/-- The removed deltas: one batched soft-delete call, then
`tx_removed += len(removed_ids)` regardless of the rowcount. -/
def processRemovedStep (user_id : String) (removed : List PlaidRemoved) (c : Conn)
    (k : Counts) : Except Counts (Conn × Counts) :=
  if (removed.map (·.transaction_id)).isEmpty then
    .ok (c, { k with tx_removed := k.tx_removed + (removed.map (·.transaction_id)).length })
  else
    match c.step (fun db =>
        apply_transaction_removed db user_id (removed.map (·.transaction_id))) with
    | .error _ => .error k
    | .ok (c1, _) =>
        .ok (c1, { k with tx_removed := k.tx_removed + (removed.map (·.transaction_id)).length })

/-- One delta page as one atomic unit of work: added, modified, removed, then
the cursor update, committed together.  An error returns the counter values
reached at the fault; the caller keeps its pre-page database (rollback). -/
def processPage (user_id plaid_item_id : String) (pr : PageResult) (db : DB)
    (failAt : Option Nat) (k : Counts) : Except Counts (DB × Counts) :=
  match processAddedList user_id plaid_item_id pr.added
      { db := db, opIdx := 0, failAt := failAt } k with
  | .error k' => .error k'
  | .ok (c1, k1) =>
      match processModifiedList user_id pr.modified c1 k1 with
      | .error k' => .error k'
      | .ok (c2, k2) =>
          match processRemovedStep user_id pr.removed c2 k2 with
          | .error k' => .error k'
          | .ok (c3, k3) =>
              match c3.step (fun db =>
                (update_sync_cursor db plaid_item_id pr.next_cursor, ())) with
              | .error _ => .error k3
              | .ok (c4, _) => .ok (c4.db, k3)

/-! ### The item sync engine -/

def mkSummary (item_external_id : String) (nAcc : Nat) (k : Counts)
    (has_more : Bool) (error_code error_message : Option String) : SyncSummary :=
  { plaid_item_id := item_external_id
    accounts_upserted := nAcc
    tx_added := k.tx_added
    tx_modified := k.tx_modified
    tx_removed := k.tx_removed
    has_more := has_more
    error_code := error_code
    error_message := error_message }

/-- Outcome of one `sync_item` call: a returned summary together with the
committed database and the trace of cursors requested from the provider, a
propagated exception (the bare `raise` of the cursor-load block), or fuel
exhaustion standing for a non-terminating pagination loop. -/
inductive SyncOutcome where
  | outcomeOk (db : DB) (s : SyncSummary) (trace : List (Option String))
  | outcomeRaised (db : DB) (trace : List (Option String))
  | fuelOut (trace : List (Option String))
deriving DecidableEq, Repr

def SyncOutcome.summary : SyncOutcome → Option SyncSummary
  | .outcomeOk _ s _ => some s
  | _ => none

def SyncOutcome.dbOf : SyncOutcome → Option DB
  | .outcomeOk db _ _ => some db
  | .outcomeRaised db _ => some db
  | .fuelOut _ => none

def SyncOutcome.trace : SyncOutcome → List (Option String)
  | .outcomeOk _ _ tr => tr
  | .outcomeRaised _ tr => tr
  | .fuelOut tr => tr

/-- The `while True` pagination loop of `sync_item`.  `lastHM` is the Python
`last_has_more` local, `pageNum` the 1-based page counter, `tr` the trace of
cursors already requested. -/
def pageLoop (client : PlaidClientModel) (user_id plaid_item_id item_external_id : String)
    (nAcc : Nat) (faults : FaultSpec) :
    Nat → Option String → DB → Counts → Bool → Nat → List (Option String) → SyncOutcome
  | 0, _, _, _, _, _, tr => .fuelOut tr
  | Nat.succ fuel, cursor, db, k, lastHM, pageNum, tr =>
      match client.transactions_sync_page user_id item_external_id cursor with
      | .error msg =>
          .outcomeOk db
            (mkSummary item_external_id nAcc k lastHM
              (some "transactions_sync_failed") (some msg))
            (tr ++ [cursor])
      | .ok pr =>
          match processPage user_id plaid_item_id pr db (faults.pageFail pageNum) k with
          | .error k' =>
              .outcomeOk db
                (mkSummary item_external_id nAcc k' lastHM
                  (some "page_processing_failed") (some "db error"))
                (tr ++ [cursor])
          | .ok (db', k') =>
              if pr.has_more then
                pageLoop client user_id plaid_item_id item_external_id nAcc faults
                  fuel pr.next_cursor db' k' true (pageNum + 1) (tr ++ [cursor])
              else
                .outcomeOk db'
                  (mkSummary item_external_id nAcc k' false none none)
                  (tr ++ [cursor])

/-- `sync_item`: account phase, cursor load, then the delta page loop. -/
def syncItem (client : PlaidClientModel) (item_db_id item_external_id user_id : String)
    (db0 : DB) (faults : FaultSpec) (fuel : Nat) : SyncOutcome :=
  match client.get_accounts user_id item_external_id with
  | .error msg =>
      .outcomeOk db0
        (mkSummary item_external_id 0 ⟨0, 0, 0⟩ false
          (some "accounts_get_failed") (some msg)) []
  | .ok accts =>
      match accountsPhase user_id item_db_id accts db0 faults.accountsFail with
      | .error n =>
          .outcomeOk db0
            (mkSummary item_external_id n ⟨0, 0, 0⟩ false
              (some "accounts_upsert_failed") (some "db error")) []
      | .ok (db1, nAcc) =>
          if faults.cursorLoadFail then .outcomeRaised db1 []
          else
            let r := get_or_create_sync_state db1 item_db_id
            pageLoop client user_id item_db_id item_external_id nAcc faults
              fuel r.2.transactions_cursor r.1 ⟨0, 0, 0⟩ false 1 []

/-! ### The orchestrator (`sync_all_items_for_user`) -/

/-- The functions actually defined by `database/supabase/plaid_item.py`. -/
def plaidItemRepoFunctions : List String :=
  ["get_plaid_item_by_id", "get_plaid_item_by_user_and_item",
   "list_plaid_items_for_user", "create_or_update_plaid_item",
   "deactivate_plaid_item"]

/-- A Python attribute access on a module: present names call through, absent
names raise `AttributeError`. -/
def moduleCall (functions : List String) (fname : String) (call : Unit → α) :
    Except String α :=
  if fname ∈ functions then .ok (call ())
  else .error ("AttributeError: " ++ fname)

structure ItemRow where
  id : String
  user_id : String
  item_id : String
deriving DecidableEq, Repr

/-- Modelled from the spec: `database/supabase/plaid_item.py` defines no
`list_active_plaid_items_for_user`, yet the orchestrator calls one; §4.1 of
the spec says the orchestrator must "enumerate that user's active
LinkedItems", so the missing enumeration is modelled as the user's items
whose active flag is set, in stored order. -/
def list_active_plaid_items_for_user_spec (db : DB) (user_id : String) :
    List ItemRow :=
  (db.plaid_items.filter (fun i => i.is_active && i.user_id == user_id)).map
    (fun i => { id := i.id, user_id := i.user_id, item_id := i.item_id })

inductive OrchOutcome where
  | orOk (db : DB) (summaries : List SyncSummary)
  | orRaised (db : DB) (msg : String)
  | orFuelOut
deriving DecidableEq, Repr

/-- The sequential per-item loop of `sync_all_items_for_user`; an exception
propagating out of `sync_item` is not caught there. -/
def syncItemsLoop (client : PlaidClientModel) (user_id : String)
    (faults : String → FaultSpec) (fuel : Nat) :
    List ItemRow → DB → List SyncSummary → OrchOutcome
  | [], db, acc => .orOk db acc
  | it :: rest, db, acc =>
      match syncItem client it.id it.item_id user_id db (faults it.id) fuel with
      | .outcomeOk db' s _ => syncItemsLoop client user_id faults fuel rest db' (acc ++ [s])
      | .outcomeRaised db' _ => .orRaised db' "db error"
      | .fuelOut _ => .orFuelOut

/-- `sync_all_items_for_user` as written: the enumeration step accesses
`plaid_item_repo.list_active_plaid_items_for_user`, an attribute the module
does not define, so the access raises before any item is synced. -/
def syncAllItemsForUser (client : PlaidClientModel) (user_id : String) (db : DB)
    (faults : String → FaultSpec) (fuel : Nat) : OrchOutcome :=
  match moduleCall plaidItemRepoFunctions "list_active_plaid_items_for_user"
      (fun _ => list_active_plaid_items_for_user_spec db user_id) with
  | .error msg => .orRaised db msg
  | .ok items => syncItemsLoop client user_id faults fuel items db []

/-- The orchestrator with the missing enumeration replaced by its
spec-modelled behaviour (used to state what would hold of the surrounding
control flow). -/
def syncAllItemsForUserSpec (client : PlaidClientModel) (user_id : String) (db : DB)
    (faults : String → FaultSpec) (fuel : Nat) : OrchOutcome :=
  syncItemsLoop client user_id faults fuel
    (list_active_plaid_items_for_user_spec db user_id) db []

/-! ## Concrete fixtures used by witnesses and counterexamples -/

def exAcct : PlaidAccount :=
  { account_id := "pa1", name := some "Checking", official_name := none,
    mask := none, type := some "depository", subtype := none,
    balances := some { current := some 100, available := some 90 } }

def exDB0 : DB :=
  { accounts := [], transactions := [], sync_states := [],
    plaid_items := [{ id := "i1", user_id := "u1", item_id := "itemX", is_active := true },
                    { id := "i2", user_id := "u1", item_id := "itemY", is_active := true }],
    nextAccountId := 1, nextTxnId := 1, now := 100 }

def txA : PlaidTxn :=
  { transaction_id := some "A", pending_transaction_id := none, account_id := "pa1",
    amount := mkRat 25 2, iso_currency_code := some "USD", merchant_name := some "M",
    name := some "coffee", personal_finance_category := none, transaction_type := none,
    authorized_date := none, date := some 7, pending := false }

def txB : PlaidTxn := { txA with transaction_id := some "B" }

/-- Client whose single delta page adds two transactions. -/
def clTwoAdds : PlaidClientModel :=
  { get_accounts := fun _ _ => .ok [exAcct],
    transactions_sync_page := fun _ _ _ =>
      .ok { added := [txA, txB], modified := [], removed := [],
            next_cursor := some "c1", has_more := false } }

/-- Fault: the fourth storage operation of delta page 1 raises (that is the
upsert of the second added record, after the first was counted). -/
def faultsPage1Op3 : FaultSpec :=
  { accountsFail := none, cursorLoadFail := false,
    pageFail := fun n => if n == 1 then some 3 else none }

/-- Client whose single delta page removes external id "C" (no such row). -/
def clRemoveC : PlaidClientModel :=
  { get_accounts := fun _ _ => .ok [exAcct],
    transactions_sync_page := fun _ _ _ =>
      .ok { added := [], modified := [], removed := [{ transaction_id := "C" }],
            next_cursor := some "c1", has_more := false } }

/-! ## Claim theorems -/

/-- The spec's classification rule, stated in its own words: a positive
signed amount is a debit, a negative one a credit, and a zero amount is a
credit exactly when the provider category hint contains "INCOME"
case-insensitively, else a debit. -/
def classificationSpec (amount : Rat) (hint : Option String) : String :=
  if 0 < amount then "debit"
  else if amount < 0 then "credit"
  else if (match hint with
           | some s => strContains (upperStr s) "INCOME"
           | none => false) then "credit"
  else "debit"

def exTxPos : PlaidTxn := txA

def exTxNeg : PlaidTxn := { txA with amount := -5 }

def exTxZeroIncome : PlaidTxn :=
  { txA with amount := 0,
             personal_finance_category := some { primary := some "Income_Wages" } }

def exAcct2 : PlaidAccount := { exAcct with account_id := "pa2" }

def clTwoAccounts : PlaidClientModel :=
  { get_accounts := fun _ _ => .ok [exAcct, exAcct2],
    transactions_sync_page := fun _ _ _ => .error "not reached" }

def faultsAccountsOp2 : FaultSpec :=
  { accountsFail := some 2, cursorLoadFail := false, pageFail := fun _ => none }

def faultsEveryPageOp0 : FaultSpec :=
  { accountsFail := none, cursorLoadFail := false, pageFail := fun _ => some 0 }

/-- An account row with the given external account id exists. -/
def accountPresent (db : DB) (plaid_account_id : String) : Bool :=
  db.accounts.any (fun a => a.plaid_account_id == plaid_account_id)

/-- A delta page reporting no changes. -/
def emptyPage (nc : Option String) (hm : Bool) : PageResult :=
  { added := [], modified := [], removed := [], next_cursor := nc, has_more := hm }

/-- A delta page carrying only removed records. -/
def removedPage (rs : List PlaidRemoved) (nc : Option String) (hm : Bool) : PageResult :=
  { added := [], modified := [], removed := rs, next_cursor := nc, has_more := hm }

/-- A delta page carrying one added record. -/
def addedPage (t : PlaidTxn) (nc : Option String) (hm : Bool) : PageResult :=
  { added := [t], modified := [], removed := [], next_cursor := nc, has_more := hm }

def OrchOutcome.summaries : OrchOutcome → Option (List SyncSummary)
  | .orOk _ ss => some ss
  | _ => none

/-- A database that already holds one reconciled account and a sync-state row
for item i1 (the committed aftermath of an earlier account phase). -/
def dbC5 : DB :=
  { accounts := [{ id := "1", user_id := "u1", plaid_item_id := "i1",
                   plaid_account_id := "pa1", name := some "Checking",
                   official_name := none, mask := none, type := some "depository",
                   subtype := none, current_balance := some 100,
                   available_balance := some 90, updated_at := 100 }],
    transactions := [],
    sync_states := [{ plaid_item_id := "i1", transactions_cursor := none,
                      accounts_last_synced_at := some 100, updated_at := 100 }],
    plaid_items := [],
    nextAccountId := 2, nextTxnId := 1, now := 100 }

/-- Provider for the resume scenario: the first delta page (cursor null)
reports no changes and continues at "c1"; the page at "c1" reports no changes
and would finish. -/
def clC5 : PlaidClientModel :=
  { get_accounts := fun _ _ => .ok [],
    transactions_sync_page := fun _ _ c =>
      match c with
      | none => .ok (emptyPage (some "c1") true)
      | some "c1" => .ok (emptyPage (some "c2") false)
      | some _ => .error "unknown cursor" }

/-- Fault: the first storage operation of delta page 2 raises. -/
def faultsPage2Op0 : FaultSpec :=
  { accountsFail := none, cursorLoadFail := false,
    pageFail := fun n => if n == 2 then some 0 else none }

def accC9 : AccountRow :=
  { id := "1", user_id := "u1", plaid_item_id := "i1", plaid_account_id := "pa1",
    name := none, official_name := none, mask := none, type := none,
    subtype := none, current_balance := none, available_balance := none,
    updated_at := 50 }

def txnC9 : TxnRow :=
  { id := 1, account_id := "1", external_txn_id := some "E", amount := 5,
    currency := none, type := "debit", merchant_name := none, description := none,
    category := none, authorized_date := none, posted_date := none,
    pending := false, original_payer_user_id := none, deleted_at := none,
    created_at := 50, updated_at := 50 }

def dbC9 : DB :=
  { accounts := [accC9], transactions := [txnC9], sync_states := [],
    plaid_items := [], nextAccountId := 2, nextTxnId := 2, now := 100 }

/-- An added record carrying both the pending-counterpart id "E" and the
posted id "F", for the account of `dbC9`. -/
def txPosted : PlaidTxn :=
  { transaction_id := some "F", pending_transaction_id := some "E",
    account_id := "pa1", amount := 7, iso_currency_code := some "USD",
    merchant_name := none, name := some "posted", personal_finance_category := none,
    transaction_type := none, authorized_date := none, date := some 9,
    pending := false }

def dataC9 : TxFields :=
  { account_id := "1", external_txn_id := some "E", amount := 7,
    currency := some "USD", type := "debit", merchant_name := none,
    description := some "re-added", category := none, authorized_date := none,
    posted_date := some 9, pending := false,
    original_payer_user_id := some "u1" }

/-- Re-sync witness client: the same single account on every call, and an
empty delta page at whatever cursor is presented. -/
def clC6 : PlaidClientModel :=
  { get_accounts := fun _ _ => .ok [exAcct],
    transactions_sync_page := fun _ _ _ => .ok (emptyPage none false) }

/-- Orchestrator witness client: the first item's account fetch fails at the
provider, the second item syncs normally with no accounts and no deltas. -/
def clOrch : PlaidClientModel :=
  { get_accounts := fun _ e => if e == "itemX" then .error "provider down" else .ok [],
    transactions_sync_page := fun _ _ _ => .ok (emptyPage none false) }

/-- What a transaction-page storage operation leaves untouched: every table
except `transactions`, plus the fault oracle. -/
def connFrame (c c' : Conn) : Prop :=
  c'.db.accounts = c.db.accounts ∧ c'.db.sync_states = c.db.sync_states ∧
  c'.db.plaid_items = c.db.plaid_items ∧ c'.db.now = c.db.now ∧
  c'.failAt = c.failAt

/-! ## Helper lemmas -/

theorem countP_map_eq {α : Type} (l : List α) (f : α → α) (p q : α → Bool)
    (h : ∀ a ∈ l, p (f a) = q a) : (l.map f).countP p = l.countP q := by
  induction l with
  | nil => rfl
  | cons a l ih =>
      simp only [List.map_cons, List.countP_cons, h a (List.mem_cons_self a l)]
      rw [ih (fun b hb => h b (List.mem_cons_of_mem a hb))]

theorem countP_or_disjoint {α : Type} (l : List α) (p q : α → Bool)
    (h : ∀ a ∈ l, ¬(p a = true ∧ q a = true)) :
    l.countP (fun a => p a || q a) = l.countP p + l.countP q := by
  induction l with
  | nil => rfl
  | cons a l ih =>
      have ha := h a (List.mem_cons_self a l)
      have ih' := ih (fun b hb => h b (List.mem_cons_of_mem a hb))
      simp only [List.countP_cons, ih']
      cases hp : p a <;> cases hq : q a <;> simp_all <;> omega

theorem find?_map_of_pred_preserved {α : Type} (l : List α) (g : α → α)
    (p : α → Bool) (hg : ∀ a, p (g a) = p a) :
    (l.map g).find? p = (l.find? p).map g := by
  induction l with
  | nil => rfl
  | cons a l ih =>
      cases h : p a with
      | true => simp [List.find?_cons, hg, h]
      | false => simp [List.find?_cons, hg, h, ih]

theorem any_map_eq {α : Type} (l : List α) (g : α → α) (p : α → Bool)
    (hg : ∀ a ∈ l, p (g a) = p a) : (l.map g).any p = l.any p := by
  induction l with
  | nil => rfl
  | cons a l ih =>
      simp only [List.map_cons, List.any_cons, hg a (List.mem_cons_self a l)]
      rw [ih (fun b hb => hg b (List.mem_cons_of_mem a hb))]

/-! ### Frame lemmas: which tables each repository operation leaves alone -/

theorem upsert_plaid_account_frame (db : DB) (f : AccountFields) :
    (upsert_plaid_account db f).1.transactions = db.transactions ∧
    (upsert_plaid_account db f).1.sync_states = db.sync_states ∧
    (upsert_plaid_account db f).1.plaid_items = db.plaid_items ∧
    (upsert_plaid_account db f).1.now = db.now := by
  unfold upsert_plaid_account
  cases db.accounts.find? (fun a => a.plaid_account_id == f.plaid_account_id) <;>
    exact ⟨rfl, rfl, rfl, rfl⟩

theorem upsert_transaction_added_frame (db : DB) (d : TxFields) :
    (upsert_transaction_added db d).accounts = db.accounts ∧
    (upsert_transaction_added db d).sync_states = db.sync_states ∧
    (upsert_transaction_added db d).plaid_items = db.plaid_items ∧
    (upsert_transaction_added db d).now = db.now := by
  unfold upsert_transaction_added
  cases d.external_txn_id with
  | none => exact ⟨rfl, rfl, rfl, rfl⟩
  | some e =>
      by_cases h : db.transactions.any (fun t => t.external_txn_id == some e) = true <;>
        simp [h]

theorem apply_transaction_modified_frame (db : DB) (d : TxFields) :
    (apply_transaction_modified db d).accounts = db.accounts ∧
    (apply_transaction_modified db d).sync_states = db.sync_states ∧
    (apply_transaction_modified db d).plaid_items = db.plaid_items ∧
    (apply_transaction_modified db d).now = db.now := by
  unfold apply_transaction_modified
  cases d.external_txn_id <;> exact ⟨rfl, rfl, rfl, rfl⟩

theorem apply_transaction_removed_frame (db : DB) (u : String) (ids : List String) :
    (apply_transaction_removed db u ids).1.accounts = db.accounts ∧
    (apply_transaction_removed db u ids).1.sync_states = db.sync_states ∧
    (apply_transaction_removed db u ids).1.plaid_items = db.plaid_items ∧
    (apply_transaction_removed db u ids).1.now = db.now := by
  unfold apply_transaction_removed
  by_cases h : ids.isEmpty = true <;> simp [h]

theorem relink_pending_to_posted_frame (db : DB) (p q : String) (d : TxFields) :
    (relink_pending_to_posted db p q d).1.accounts = db.accounts ∧
    (relink_pending_to_posted db p q d).1.sync_states = db.sync_states ∧
    (relink_pending_to_posted db p q d).1.plaid_items = db.plaid_items ∧
    (relink_pending_to_posted db p q d).1.now = db.now :=
  ⟨rfl, rfl, rfl, rfl⟩

theorem get_or_create_sync_state_frame (db : DB) (item : String) :
    (get_or_create_sync_state db item).1.accounts = db.accounts ∧
    (get_or_create_sync_state db item).1.transactions = db.transactions ∧
    (get_or_create_sync_state db item).1.plaid_items = db.plaid_items ∧
    (get_or_create_sync_state db item).1.now = db.now := by
  unfold get_or_create_sync_state
  cases db.sync_states.find? (fun s => s.plaid_item_id == item) <;>
    exact ⟨rfl, rfl, rfl, rfl⟩

theorem update_accounts_last_synced_at_frame (db : DB) (item : String) :
    (update_accounts_last_synced_at db item).accounts = db.accounts ∧
    (update_accounts_last_synced_at db item).transactions = db.transactions ∧
    (update_accounts_last_synced_at db item).plaid_items = db.plaid_items ∧
    (update_accounts_last_synced_at db item).now = db.now :=
  ⟨rfl, rfl, rfl, rfl⟩

theorem update_sync_cursor_frame (db : DB) (item : String) (c : Option String) :
    (update_sync_cursor db item c).accounts = db.accounts ∧
    (update_sync_cursor db item c).transactions = db.transactions ∧
    (update_sync_cursor db item c).plaid_items = db.plaid_items ∧
    (update_sync_cursor db item c).now = db.now :=
  ⟨rfl, rfl, rfl, rfl⟩

/-! ### Cursor and sync-state-row lemmas -/

theorem getCursor_congr {db db' : DB} (h : db'.sync_states = db.sync_states)
    (item : String) : getCursor db' item = getCursor db item := by
  unfold getCursor; rw [h]

theorem stateRowExists_congr {db db' : DB} (h : db'.sync_states = db.sync_states)
    (item : String) : stateRowExists db' item = stateRowExists db item := by
  unfold stateRowExists; rw [h]

theorem accountPresent_congr {db db' : DB} (h : db'.accounts = db.accounts)
    (pid : String) : accountPresent db' pid = accountPresent db pid := by
  unfold accountPresent; rw [h]

theorem getCursor_get_or_create (db : DB) (item : String) :
    getCursor (get_or_create_sync_state db item).1 item = getCursor db item ∧
    (get_or_create_sync_state db item).2.transactions_cursor = getCursor db item ∧
    stateRowExists (get_or_create_sync_state db item).1 item = true := by
  unfold get_or_create_sync_state getCursor stateRowExists
  cases hf : db.sync_states.find? (fun s => s.plaid_item_id == item) with
  | none =>
      refine ⟨?_, rfl, ?_⟩
      · rw [List.find?_append, hf]
        simp [List.find?]
      · simp [List.any_append]
  | some s =>
      have hps := List.find?_some hf
      have hmem : s ∈ db.sync_states := List.mem_of_find?_eq_some hf
      refine ⟨?_, rfl, ?_⟩
      · rw [find?_map_of_pred_preserved db.sync_states _ _ ?_]
        · rw [hf]
          by_cases h : s.plaid_item_id = item <;> simp [h]
        · intro a
          by_cases h : a.plaid_item_id = item <;> simp [h]
      · rw [any_map_eq db.sync_states _ _ ?_]
        · simp only [List.any_eq_true]
          exact ⟨s, hmem, hps⟩
        · intro a _
          by_cases h : a.plaid_item_id = item <;> simp [h]

theorem getCursor_update_accounts_last_synced_at (db : DB) (item it2 : String) :
    getCursor (update_accounts_last_synced_at db item) it2 = getCursor db it2 := by
  unfold getCursor update_accounts_last_synced_at
  simp only []
  rw [find?_map_of_pred_preserved db.sync_states _ _ ?_]
  · cases db.sync_states.find? (fun s => s.plaid_item_id == it2) with
    | none => rfl
    | some s =>
        by_cases h : s.plaid_item_id = item <;> simp [h]
  · intro a
    by_cases h : a.plaid_item_id = item <;> simp [h]

theorem getCursor_update_sync_cursor (db : DB) (item : String) (c : Option String)
    (h : stateRowExists db item = true) :
    getCursor (update_sync_cursor db item c) item = c := by
  unfold getCursor update_sync_cursor
  simp only []
  rw [find?_map_of_pred_preserved db.sync_states _ _ ?_]
  · obtain ⟨s, hmem, hps⟩ := List.any_eq_true.mp h
    cases hf : db.sync_states.find? (fun s => s.plaid_item_id == item) with
    | none =>
        exfalso
        have := List.find?_eq_none.mp hf s hmem
        simp_all
    | some s0 =>
        have hps0 := List.find?_some hf
        by_cases h0 : s0.plaid_item_id = item
        · simp [h0]
        · simp_all
  · intro a
    by_cases ha : a.plaid_item_id = item <;> simp [ha]

theorem stateRowExists_update_sync_cursor (db : DB) (item it2 : String)
    (c : Option String) :
    stateRowExists (update_sync_cursor db item c) it2 = stateRowExists db it2 := by
  unfold stateRowExists update_sync_cursor
  simp only []
  rw [any_map_eq db.sync_states _ _ ?_]
  intro a _
  by_cases h : a.plaid_item_id = item <;> simp [h]

theorem stateRowExists_update_accounts_last_synced_at (db : DB) (item it2 : String) :
    stateRowExists (update_accounts_last_synced_at db item) it2 =
      stateRowExists db it2 := by
  unfold stateRowExists update_accounts_last_synced_at
  simp only []
  rw [any_map_eq db.sync_states _ _ ?_]
  intro a _
  by_cases h : a.plaid_item_id = item <;> simp [h]

/-! ### Connection step lemmas -/

theorem Conn.step_none {α : Type} (c : Conn) (f : DB → DB × α) (h : c.failAt = none) :
    c.step f = .ok ({ c with db := (f c.db).1, opIdx := c.opIdx + 1 }, (f c.db).2) := by
  simp [Conn.step, h]

theorem Conn.step_fail {α : Type} (c : Conn) (f : DB → DB × α)
    (h : c.failAt = some c.opIdx) : c.step f = .error () := by
  simp [Conn.step, h]

theorem Conn.step_noFail {α : Type} (c : Conn) (f : DB → DB × α)
    (h : (c.failAt == some c.opIdx) = false) :
    c.step f = .ok ({ c with db := (f c.db).1, opIdx := c.opIdx + 1 }, (f c.db).2) := by
  simp [Conn.step, h]

/-! ### Account-presence lemmas -/

theorem accountPresent_upsert_self (db : DB) (f : AccountFields) :
    accountPresent (upsert_plaid_account db f).1 f.plaid_account_id = true := by
  unfold accountPresent upsert_plaid_account
  cases hf : db.accounts.find? (fun a => a.plaid_account_id == f.plaid_account_id) with
  | some a =>
      have hpa := List.find?_some hf
      have hmem : a ∈ db.accounts := List.mem_of_find?_eq_some hf
      simp only []
      rw [any_map_eq db.accounts _ _ ?_]
      · exact List.any_eq_true.mpr ⟨a, hmem, hpa⟩
      · intro b _
        by_cases h : b.plaid_account_id = f.plaid_account_id <;> simp [h]
  | none => simp [List.any_append]

theorem accountPresent_upsert_mono (db : DB) (f : AccountFields) (pid : String)
    (h : accountPresent db pid = true) :
    accountPresent (upsert_plaid_account db f).1 pid = true := by
  unfold accountPresent upsert_plaid_account
  cases hf : db.accounts.find? (fun a => a.plaid_account_id == f.plaid_account_id) with
  | some a =>
      simp only []
      rw [any_map_eq db.accounts _ _ ?_]
      · exact h
      · intro b _
        by_cases hb : b.plaid_account_id = f.plaid_account_id <;> simp [hb]
  | none =>
      simp only [List.any_append, Bool.or_eq_true]
      exact Or.inl h

theorem upsert_length_of_present (db : DB) (f : AccountFields)
    (h : accountPresent db f.plaid_account_id = true) :
    (upsert_plaid_account db f).1.accounts.length = db.accounts.length := by
  unfold upsert_plaid_account
  cases hf : db.accounts.find? (fun a => a.plaid_account_id == f.plaid_account_id) with
  | some a => simp
  | none =>
      exfalso
      obtain ⟨b, hmem, hb⟩ := List.any_eq_true.mp h
      have := List.find?_eq_none.mp hf b hmem
      simp_all

/-! ### Account phase: no-fault normal form and fault normal form -/

theorem runAccountsUpserts_noFault (u i : String) (accts : List PlaidAccount) :
    ∀ (c : Conn) (acc : Nat), c.failAt = none →
    ∃ c', runAccountsUpserts u i accts c acc = .ok (c', acc + accts.length) ∧
      c'.failAt = none ∧
      c'.db.transactions = c.db.transactions ∧
      c'.db.sync_states = c.db.sync_states ∧
      c'.db.plaid_items = c.db.plaid_items ∧
      (∀ a ∈ accts, accountPresent c'.db a.account_id = true) ∧
      (∀ pid, accountPresent c.db pid = true → accountPresent c'.db pid = true) ∧
      ((∀ a ∈ accts, accountPresent c.db a.account_id = true) →
        c'.db.accounts.length = c.db.accounts.length) := by
  induction accts with
  | nil =>
      intro c acc h
      exact ⟨c, by simp [runAccountsUpserts], h, rfl, rfl, rfl,
        by simp, fun _ hp => hp, fun _ => rfl⟩
  | cons a rest ih =>
      intro c acc h
      have hstep := c.step_none (fun db =>
        upsert_plaid_account db (map_plaid_account_to_db_fields u i a)) h
      set c1 : Conn :=
        { c with db := (upsert_plaid_account c.db (map_plaid_account_to_db_fields u i a)).1,
                 opIdx := c.opIdx + 1 } with hc1
      obtain ⟨c', hrun, hfail, htx, hss, hpi, hpres, hmono, hlen⟩ := ih c1 (acc + 1) h
      have hframe := upsert_plaid_account_frame c.db (map_plaid_account_to_db_fields u i a)
      have hlen2 : acc + (a :: rest).length = acc + 1 + rest.length := by
        simp only [List.length_cons]
        omega
      refine ⟨c', ?_, hfail, ?_, ?_, ?_, ?_, ?_, ?_⟩
      · rw [runAccountsUpserts, hstep]
        show runAccountsUpserts u i rest c1 (acc + 1) = _
        rw [hlen2]
        exact hrun
      · rw [htx]; exact hframe.1
      · rw [hss]; exact hframe.2.1
      · rw [hpi]; exact hframe.2.2.1
      · intro b hb
        rcases List.mem_cons.mp hb with hb | hb
        · subst hb
          exact hmono b.account_id (accountPresent_upsert_self c.db _)
        · exact hpres b hb
      · intro pid hp
        exact hmono pid (accountPresent_upsert_mono c.db _ pid hp)
      · intro hall
        have h1 : accountPresent c.db a.account_id = true :=
          hall a (List.mem_cons_self a rest)
        have h2 : c1.db.accounts.length = c.db.accounts.length :=
          upsert_length_of_present c.db _ h1
        have h3 : ∀ b ∈ rest, accountPresent c1.db b.account_id = true :=
          fun b hb => accountPresent_upsert_mono c.db _ _
            (hall b (List.mem_cons_of_mem a hb))
        rw [hlen h3, h2]

theorem accountsPhase_noFault (u i : String) (accts : List PlaidAccount) (db : DB) :
    ∃ db', accountsPhase u i accts db none = .ok (db', accts.length) ∧
      db'.transactions = db.transactions ∧
      db'.plaid_items = db.plaid_items ∧
      getCursor db' i = getCursor db i ∧
      stateRowExists db' i = true ∧
      (∀ a ∈ accts, accountPresent db' a.account_id = true) ∧
      (∀ pid, accountPresent db pid = true → accountPresent db' pid = true) ∧
      ((∀ a ∈ accts, accountPresent db a.account_id = true) →
        db'.accounts.length = db.accounts.length) := by
  have hgframe := get_or_create_sync_state_frame db i
  have hgcur := getCursor_get_or_create db i
  obtain ⟨c', hrun, hfail, htx, hss, hpi, hpres, hmono, hlen⟩ :=
    runAccountsUpserts_noFault u i accts
      { db := (get_or_create_sync_state db i).1, opIdx := 1, failAt := none } 0 rfl
  set dbg := (get_or_create_sync_state db i).1 with hdbg
  have hstep3 := c'.step_none (fun db => (update_accounts_last_synced_at db i, ())) hfail
  have huframe := update_accounts_last_synced_at_frame c'.db i
  refine ⟨update_accounts_last_synced_at c'.db i, ?_, ?_, ?_, ?_, ?_, ?_, ?_, ?_⟩
  case refine_1 =>
    unfold accountsPhase
    rw [Conn.step_none { db := db, opIdx := 0, failAt := none }
      (fun db => get_or_create_sync_state db i) rfl]
    show (match runAccountsUpserts u i accts
        { db := dbg, opIdx := 1, failAt := none } 0 with
      | Except.error n => Except.error n
      | Except.ok (c2, n) =>
          match c2.step (fun db => (update_accounts_last_synced_at db i, ())) with
          | Except.error _ => Except.error n
          | Except.ok (c3, _) => Except.ok (c3.db, n)) = _
    rw [hrun]
    show (match c'.step (fun db => (update_accounts_last_synced_at db i, ())) with
      | Except.error _ => Except.error (0 + accts.length)
      | Except.ok (c3, _) => Except.ok (c3.db, 0 + accts.length)) = _
    rw [hstep3]
    rw [Nat.zero_add]
  · rw [huframe.2.1, htx]; exact hgframe.2.1
  · rw [huframe.2.2.1, hpi]; exact hgframe.2.2.1
  · rw [getCursor_update_accounts_last_synced_at c'.db i i,
      getCursor_congr hss i]
    exact hgcur.1
  · rw [stateRowExists_update_accounts_last_synced_at c'.db i i,
      stateRowExists_congr hss i]
    exact hgcur.2.2
  · intro a ha
    rw [accountPresent_congr huframe.1]
    exact hpres a ha
  · intro pid hp
    rw [accountPresent_congr huframe.1]
    refine hmono pid ?_
    show accountPresent dbg pid = true
    rw [accountPresent_congr hgframe.1]
    exact hp
  · intro hall
    have hall' : ∀ a ∈ accts, accountPresent dbg a.account_id = true := by
      intro a ha
      show accountPresent dbg a.account_id = true
      rw [accountPresent_congr hgframe.1]
      exact hall a ha
    have h1 := hlen hall'
    have h2 : dbg.accounts = db.accounts := hgframe.1
    calc (update_accounts_last_synced_at c'.db i).accounts.length
        = c'.db.accounts.length := by rw [huframe.1]
      _ = dbg.accounts.length := h1
      _ = db.accounts.length := by rw [h2]

theorem runAccountsUpserts_fault (u i : String) (accts : List PlaidAccount) :
    ∀ (c : Conn) (acc k : Nat), c.failAt = some (c.opIdx + k) → k < accts.length →
    runAccountsUpserts u i accts c acc = .error (acc + k) := by
  induction accts with
  | nil => intro c acc k _ hk; exact absurd hk (by simp)
  | cons a rest ih =>
      intro c acc k hf hk
      cases k with
      | zero =>
          have hc : c.failAt = some c.opIdx := by rw [hf, Nat.add_zero]
          rw [runAccountsUpserts, c.step_fail _ hc]
          show Except.error acc = Except.error (acc + 0)
          rw [Nat.add_zero]
      | succ k =>
          have hne : (c.failAt == some c.opIdx) = false := by
            rw [hf]
            simp only [beq_eq_false_iff_ne, ne_eq, Option.some.injEq]
            omega
          rw [runAccountsUpserts, c.step_noFail _ hne]
          show runAccountsUpserts u i rest { c with
              db := (upsert_plaid_account c.db (map_plaid_account_to_db_fields u i a)).1,
              opIdx := c.opIdx + 1 } (acc + 1) = Except.error (acc + (k + 1))
          rw [ih { c with
              db := (upsert_plaid_account c.db (map_plaid_account_to_db_fields u i a)).1,
              opIdx := c.opIdx + 1 } (acc + 1) k
            (by simp only [hf]; congr 1; omega)
            (by simp only [List.length_cons] at hk; omega)]
          congr 1
          omega

/-! ### Page-processing frame and totality lemmas -/

theorem Conn.step_ok_inv {α : Type} {c : Conn} {f : DB → DB × α} {p : Conn × α}
    (h : c.step f = .ok p) :
    p = ({ c with db := (f c.db).1, opIdx := c.opIdx + 1 }, (f c.db).2) := by
  unfold Conn.step at h
  by_cases hb : (c.failAt == some c.opIdx) = true
  · simp [hb] at h
  · simp only [hb, Bool.false_eq_true, if_false] at h
    injection h with h1
    exact h1.symm

theorem connFrame_rfl (c : Conn) : connFrame c c :=
  ⟨rfl, rfl, rfl, rfl, rfl⟩

theorem connFrame_trans {c1 c2 c3 : Conn} (h1 : connFrame c1 c2)
    (h2 : connFrame c2 c3) : connFrame c1 c3 :=
  ⟨h2.1.trans h1.1, h2.2.1.trans h1.2.1, h2.2.2.1.trans h1.2.2.1,
    h2.2.2.2.1.trans h1.2.2.2.1, h2.2.2.2.2.trans h1.2.2.2.2⟩

theorem addedUpsertStep_frame {d : TxFields} {c : Conn} {k : Counts}
    {c' : Conn} {k' : Counts} (h : addedUpsertStep d c k = .ok (c', k')) :
    connFrame c c' ∧ k' = { k with tx_added := k.tx_added + 1 } := by
  unfold addedUpsertStep at h
  cases hs : c.step (fun db => (upsert_transaction_added db d, ())) with
  | error e => rw [hs] at h; cases h
  | ok p =>
      rw [hs] at h
      have hp := Conn.step_ok_inv hs
      obtain ⟨c2, u⟩ := p
      simp only [] at h
      injection h with h1
      injection h1 with hc hk
      subst hc; subst hk
      have hfr := upsert_transaction_added_frame c.db d
      have hc2 : c2 = { c with db := upsert_transaction_added c.db d, opIdx := c.opIdx + 1 } :=
        congrArg Prod.fst hp
      subst hc2
      exact ⟨⟨hfr.1, hfr.2.1, hfr.2.2.1, hfr.2.2.2, rfl⟩, rfl⟩

theorem processAdded1_frame {u i : String} {t : PlaidTxn} {c : Conn} {k : Counts}
    {c' : Conn} {k' : Counts} (h : processAdded1 u i t c k = .ok (c', k')) :
    connFrame c c' := by
  unfold processAdded1 at h
  cases hs : c.step (fun db =>
      (db, get_account_id_by_plaid_account_id db u i t.account_id)) with
  | error e => rw [hs] at h; cases h
  | ok p =>
      rw [hs] at h
      have hp := Conn.step_ok_inv hs
      obtain ⟨c1, acctId⟩ := p
      have hc1 : c1 = { c with db := c.db, opIdx := c.opIdx + 1 } :=
        congrArg Prod.fst hp
      have hfr1 : connFrame c c1 := by rw [hc1]; exact ⟨rfl, rfl, rfl, rfl, rfl⟩
      simp only [] at h
      cases acctId with
      | none =>
          injection h with h1
          injection h1 with hc hk
          subst hc
          exact hfr1
      | some aid =>
          dsimp only [] at h
          cases hpd : t.pending_transaction_id with
          | none =>
              rw [hpd] at h
              dsimp only [] at h
              obtain ⟨hfr2, _⟩ := addedUpsertStep_frame h
              exact connFrame_trans hfr1 hfr2
          | some pending_id =>
              rw [hpd] at h
              cases hpo : t.transaction_id with
              | none =>
                  rw [hpo] at h
                  dsimp only [] at h
                  obtain ⟨hfr2, _⟩ := addedUpsertStep_frame h
                  exact connFrame_trans hfr1 hfr2
              | some posted_id =>
                  rw [hpo] at h
                  dsimp only [] at h
                  by_cases hne : (pending_id != "" && posted_id != "") = true
                  · rw [if_pos hne] at h
                    cases hs2 : c1.step (fun db => relink_pending_to_posted db
                        pending_id posted_id
                        (map_plaid_transaction_to_db_fields aid t u)) with
                    | error e => rw [hs2] at h; cases h
                    | ok p2 =>
                        rw [hs2] at h
                        have hp2 := Conn.step_ok_inv hs2
                        obtain ⟨c2, relinked⟩ := p2
                        have hc2 : c2 = { c1 with
                            db := (relink_pending_to_posted c1.db pending_id posted_id
                              (map_plaid_transaction_to_db_fields aid t u)).1,
                            opIdx := c1.opIdx + 1 } := congrArg Prod.fst hp2
                        have hfrel := relink_pending_to_posted_frame c1.db pending_id
                          posted_id (map_plaid_transaction_to_db_fields aid t u)
                        have hfr2 : connFrame c1 c2 := by
                          rw [hc2]
                          exact ⟨hfrel.1, hfrel.2.1, hfrel.2.2.1, hfrel.2.2.2, rfl⟩
                        dsimp only [] at h
                        cases hrel : relinked with
                        | true =>
                            rw [hrel] at h
                            simp only [if_true] at h
                            injection h with h1
                            injection h1 with hc hk
                            subst hc
                            exact connFrame_trans hfr1 hfr2
                        | false =>
                            rw [hrel] at h
                            simp only [Bool.false_eq_true, if_false] at h
                            obtain ⟨hfr3, _⟩ := addedUpsertStep_frame h
                            exact connFrame_trans hfr1 (connFrame_trans hfr2 hfr3)
                  · rw [if_neg hne] at h
                    obtain ⟨hfr2, _⟩ := addedUpsertStep_frame h
                    exact connFrame_trans hfr1 hfr2

theorem processAddedList_frame {u i : String} {ts : List PlaidTxn} :
    ∀ {c : Conn} {k : Counts} {c' : Conn} {k' : Counts},
    processAddedList u i ts c k = .ok (c', k') → connFrame c c' := by
  induction ts with
  | nil =>
      intro c k c' k' h
      rw [processAddedList] at h
      injection h with h1
      injection h1 with hc hk
      subst hc
      exact connFrame_rfl c
  | cons t ts ih =>
      intro c k c' k' h
      rw [processAddedList] at h
      cases h1 : processAdded1 u i t c k with
      | error e => rw [h1] at h; cases h
      | ok p =>
          rw [h1] at h
          obtain ⟨c1, k1⟩ := p
          simp only [] at h
          exact connFrame_trans (processAdded1_frame h1) (ih h)

theorem processModified1_frame {u : String} {t : PlaidTxn} {c : Conn} {k : Counts}
    {c' : Conn} {k' : Counts} (h : processModified1 u t c k = .ok (c', k')) :
    connFrame c c' := by
  unfold processModified1 at h
  cases hs : c.step (fun db => (apply_transaction_modified db (modifiedTxData u t), ())) with
  | error e => rw [hs] at h; cases h
  | ok p =>
      rw [hs] at h
      have hp := Conn.step_ok_inv hs
      obtain ⟨c1, u1⟩ := p
      dsimp only [] at h
      injection h with h1
      injection h1 with hc hk
      subst hc
      have hc1 : c1 = { c with db := apply_transaction_modified c.db (modifiedTxData u t), opIdx := c.opIdx + 1 } :=
        congrArg Prod.fst hp
      have hfr := apply_transaction_modified_frame c.db (modifiedTxData u t)
      rw [hc1]
      exact ⟨hfr.1, hfr.2.1, hfr.2.2.1, hfr.2.2.2, rfl⟩

theorem processModifiedList_frame {u : String} {ts : List PlaidTxn} :
    ∀ {c : Conn} {k : Counts} {c' : Conn} {k' : Counts},
    processModifiedList u ts c k = .ok (c', k') → connFrame c c' := by
  induction ts with
  | nil =>
      intro c k c' k' h
      rw [processModifiedList] at h
      injection h with h1
      injection h1 with hc hk
      subst hc
      exact connFrame_rfl c
  | cons t ts ih =>
      intro c k c' k' h
      rw [processModifiedList] at h
      cases h1 : processModified1 u t c k with
      | error e => rw [h1] at h; cases h
      | ok p =>
          rw [h1] at h
          obtain ⟨c1, k1⟩ := p
          simp only [] at h
          exact connFrame_trans (processModified1_frame h1) (ih h)

theorem processRemovedStep_frame {u : String} {rs : List PlaidRemoved} {c : Conn}
    {k : Counts} {c' : Conn} {k' : Counts}
    (h : processRemovedStep u rs c k = .ok (c', k')) : connFrame c c' := by
  unfold processRemovedStep at h
  by_cases he : ((rs.map (·.transaction_id)).isEmpty) = true
  · rw [if_pos he] at h
    injection h with h1
    injection h1 with hc hk
    subst hc
    exact connFrame_rfl c
  · rw [if_neg he] at h
    cases hs : c.step (fun db =>
        apply_transaction_removed db u (rs.map (·.transaction_id))) with
    | error e => rw [hs] at h; cases h
    | ok p =>
        rw [hs] at h
        have hp := Conn.step_ok_inv hs
        obtain ⟨c1, n1⟩ := p
        simp only [] at h
        injection h with h1
        injection h1 with hc hk
        subst hc
        have hc1 : c1 = { c with db := (apply_transaction_removed c.db u
            (rs.map (·.transaction_id))).1, opIdx := c.opIdx + 1 } :=
          congrArg Prod.fst hp
        have hfr := apply_transaction_removed_frame c.db u (rs.map (·.transaction_id))
        rw [hc1]
        exact ⟨hfr.1, hfr.2.1, hfr.2.2.1, hfr.2.2.2, rfl⟩

theorem processPage_frame {u i : String} {pr : PageResult} {db : DB}
    {failAt : Option Nat} {k : Counts} {db' : DB} {k' : Counts}
    (h : processPage u i pr db failAt k = .ok (db', k')) :
    db'.accounts = db.accounts ∧ db'.plaid_items = db.plaid_items ∧
    db'.now = db.now ∧
    (∀ it2, stateRowExists db' it2 = stateRowExists db it2) ∧
    (stateRowExists db i = true → getCursor db' i = pr.next_cursor) := by
  unfold processPage at h
  cases h1 : processAddedList u i pr.added { db := db, opIdx := 0, failAt := failAt } k with
  | error e => rw [h1] at h; cases h
  | ok p1 =>
      rw [h1] at h
      obtain ⟨c1, k1⟩ := p1
      simp only [] at h
      cases h2 : processModifiedList u pr.modified c1 k1 with
      | error e => rw [h2] at h; cases h
      | ok p2 =>
          rw [h2] at h
          obtain ⟨c2, k2⟩ := p2
          simp only [] at h
          cases h3 : processRemovedStep u pr.removed c2 k2 with
          | error e => rw [h3] at h; cases h
          | ok p3 =>
              rw [h3] at h
              obtain ⟨c3, k3⟩ := p3
              simp only [] at h
              cases h4 : c3.step (fun db => (update_sync_cursor db i pr.next_cursor, ())) with
              | error e => rw [h4] at h; cases h
              | ok p4 =>
                  rw [h4] at h
                  have hp4 := Conn.step_ok_inv h4
                  obtain ⟨c4, u4⟩ := p4
                  simp only [] at h
                  injection h with h5
                  injection h5 with hdb hk
                  subst hdb
                  have hc4 : c4 = { c3 with
                      db := update_sync_cursor c3.db i pr.next_cursor,
                      opIdx := c3.opIdx + 1 } := congrArg Prod.fst hp4
                  have hfr : connFrame { db := db, opIdx := 0, failAt := failAt } c3 :=
                    connFrame_trans (processAddedList_frame h1)
                      (connFrame_trans (processModifiedList_frame h2)
                        (processRemovedStep_frame h3))
                  have hcu := update_sync_cursor_frame c3.db i pr.next_cursor
                  refine ⟨?_, ?_, ?_, ?_, ?_⟩
                  · rw [hc4]
                    show (update_sync_cursor c3.db i pr.next_cursor).accounts = db.accounts
                    rw [hcu.1]
                    exact hfr.1
                  · rw [hc4]
                    show (update_sync_cursor c3.db i pr.next_cursor).plaid_items = db.plaid_items
                    rw [hcu.2.2.1]
                    exact hfr.2.2.1
                  · rw [hc4]
                    show (update_sync_cursor c3.db i pr.next_cursor).now = db.now
                    rw [hcu.2.2.2]
                    exact hfr.2.2.2.1
                  · intro it2
                    rw [hc4]
                    show stateRowExists (update_sync_cursor c3.db i pr.next_cursor) it2 = _
                    rw [stateRowExists_update_sync_cursor c3.db i it2 pr.next_cursor,
                      stateRowExists_congr hfr.2.1 it2]
                  · intro hex
                    rw [hc4]
                    show getCursor (update_sync_cursor c3.db i pr.next_cursor) i = _
                    refine getCursor_update_sync_cursor c3.db i pr.next_cursor ?_
                    rw [stateRowExists_congr hfr.2.1 i]
                    exact hex

theorem addedUpsertStep_noFault (d : TxFields) (c : Conn) (k : Counts)
    (h : c.failAt = none) :
    ∃ c', addedUpsertStep d c k = .ok (c', { k with tx_added := k.tx_added + 1 }) ∧
      c'.failAt = none := by
  unfold addedUpsertStep
  rw [c.step_none _ h]
  exact ⟨_, rfl, h⟩

theorem processAdded1_noFault (u i : String) (t : PlaidTxn) (c : Conn) (k : Counts)
    (h : c.failAt = none) :
    ∃ c' k', processAdded1 u i t c k = .ok (c', k') ∧ c'.failAt = none := by
  unfold processAdded1
  rw [c.step_none _ h]
  dsimp only []
  cases get_account_id_by_plaid_account_id c.db u i t.account_id with
  | none => exact ⟨_, _, rfl, h⟩
  | some aid =>
      dsimp only []
      cases t.pending_transaction_id with
      | none =>
          obtain ⟨c', hs, hf⟩ := addedUpsertStep_noFault
            (map_plaid_transaction_to_db_fields aid t u)
            { c with db := c.db, opIdx := c.opIdx + 1 } k h
          exact ⟨c', _, hs, hf⟩
      | some pending_id =>
          cases t.transaction_id with
          | none =>
              obtain ⟨c', hs, hf⟩ := addedUpsertStep_noFault
                (map_plaid_transaction_to_db_fields aid t u)
                { c with db := c.db, opIdx := c.opIdx + 1 } k h
              exact ⟨c', _, hs, hf⟩
          | some posted_id =>
              dsimp only []
              by_cases hne : (pending_id != "" && posted_id != "") = true
              · rw [if_pos hne]
                rw [Conn.step_none { c with db := c.db, opIdx := c.opIdx + 1 } _ h]
                dsimp only []
                by_cases hrel : (relink_pending_to_posted c.db pending_id posted_id
                    (map_plaid_transaction_to_db_fields aid t u)).2 = true
                · rw [hrel]
                  simp only [if_true]
                  exact ⟨_, _, rfl, h⟩
                · rw [Bool.not_eq_true] at hrel
                  rw [hrel]
                  simp only [Bool.false_eq_true, if_false]
                  obtain ⟨c', hs, hf⟩ := addedUpsertStep_noFault
                    (map_plaid_transaction_to_db_fields aid t u)
                    { c with
                        db := (relink_pending_to_posted c.db pending_id posted_id
                          (map_plaid_transaction_to_db_fields aid t u)).1,
                        opIdx := c.opIdx + 1 + 1 } k h
                  exact ⟨c', _, hs, hf⟩
              · rw [if_neg hne]
                obtain ⟨c', hs, hf⟩ := addedUpsertStep_noFault
                  (map_plaid_transaction_to_db_fields aid t u)
                  { c with db := c.db, opIdx := c.opIdx + 1 } k h
                exact ⟨c', _, hs, hf⟩

theorem processAddedList_noFault (u i : String) (ts : List PlaidTxn) :
    ∀ (c : Conn) (k : Counts), c.failAt = none →
    ∃ c' k', processAddedList u i ts c k = .ok (c', k') ∧ c'.failAt = none := by
  induction ts with
  | nil => intro c k h; exact ⟨c, k, rfl, h⟩
  | cons t ts ih =>
      intro c k h
      obtain ⟨c1, k1, h1, hf1⟩ := processAdded1_noFault u i t c k h
      obtain ⟨c', k', h2, hf2⟩ := ih c1 k1 hf1
      refine ⟨c', k', ?_, hf2⟩
      rw [processAddedList, h1]
      exact h2

theorem processModified1_noFault (u : String) (t : PlaidTxn) (c : Conn) (k : Counts)
    (h : c.failAt = none) :
    ∃ c', processModified1 u t c k =
      .ok (c', { k with tx_modified := k.tx_modified + 1 }) ∧ c'.failAt = none := by
  unfold processModified1
  rw [c.step_none _ h]
  exact ⟨_, rfl, h⟩

theorem processModifiedList_noFault (u : String) (ts : List PlaidTxn) :
    ∀ (c : Conn) (k : Counts), c.failAt = none →
    ∃ c' k', processModifiedList u ts c k = .ok (c', k') ∧ c'.failAt = none := by
  induction ts with
  | nil => intro c k h; exact ⟨c, k, rfl, h⟩
  | cons t ts ih =>
      intro c k h
      obtain ⟨c1, h1, hf1⟩ := processModified1_noFault u t c k h
      obtain ⟨c', k', h2, hf2⟩ := ih c1 _ hf1
      refine ⟨c', k', ?_, hf2⟩
      rw [processModifiedList, h1]
      exact h2

theorem processRemovedStep_noFault (u : String) (rs : List PlaidRemoved) (c : Conn)
    (k : Counts) (h : c.failAt = none) :
    ∃ c', processRemovedStep u rs c k =
      .ok (c', { k with tx_removed := k.tx_removed + rs.length }) ∧
      c'.failAt = none := by
  unfold processRemovedStep
  by_cases he : ((rs.map (·.transaction_id)).isEmpty) = true
  · rw [if_pos he]
    refine ⟨c, ?_, h⟩
    have : (rs.map (·.transaction_id)).length = rs.length := List.length_map rs _
    rw [this]
  · rw [if_neg he]
    rw [c.step_none _ h]
    refine ⟨{ c with
        db := (apply_transaction_removed c.db u (rs.map (·.transaction_id))).1,
        opIdx := c.opIdx + 1 }, ?_, h⟩
    dsimp only []
    rw [List.length_map]

theorem processPage_noFault (u i : String) (pr : PageResult) (db : DB) (k : Counts) :
    ∃ db' k', processPage u i pr db none k = .ok (db', k') := by
  obtain ⟨c1, k1, h1, hf1⟩ := processAddedList_noFault u i pr.added
    { db := db, opIdx := 0, failAt := none } k rfl
  obtain ⟨c2, k2, h2, hf2⟩ := processModifiedList_noFault u pr.modified c1 k1 hf1
  obtain ⟨c3, h3, hf3⟩ := processRemovedStep_noFault u pr.removed c2 k2 hf2
  refine ⟨update_sync_cursor c3.db i pr.next_cursor,
    { k2 with tx_removed := k2.tx_removed + pr.removed.length }, ?_⟩
  unfold processPage
  rw [h1]
  dsimp only []
  rw [h2]
  dsimp only []
  rw [h3]
  dsimp only []
  rw [c3.step_none _ hf3]

/-- A delta page with no added, modified or removed records only stores the
page's next cursor. -/
theorem processPage_empty (u i : String) (nc : Option String) (hm : Bool)
    (db : DB) (k : Counts) :
    processPage u i (emptyPage nc hm) db none k =
      .ok (update_sync_cursor db i nc, k) := rfl

/-! ### Page-loop lemmas -/

theorem pageLoop_ok_inv (client : PlaidClientModel) (u i e : String) (nAcc : Nat)
    (faults : FaultSpec) :
    ∀ (fuel : Nat) (cursor : Option String) (db : DB) (k : Counts) (hm : Bool)
      (pn : Nat) (tr : List (Option String)) {dbF : DB} {s : SyncSummary}
      {trF : List (Option String)},
    pageLoop client u i e nAcc faults fuel cursor db k hm pn tr =
      .outcomeOk dbF s trF →
    dbF.accounts = db.accounts ∧ dbF.plaid_items = db.plaid_items ∧
    (∀ it2, stateRowExists dbF it2 = stateRowExists db it2) ∧
    s.plaid_item_id = e := by
  intro fuel
  induction fuel with
  | zero => intro cursor db k hm pn tr dbF s trF h; cases h
  | succ fuel ih =>
      intro cursor db k hm pn tr dbF s trF h
      rw [pageLoop] at h
      cases hf : client.transactions_sync_page u e cursor with
      | error msg =>
          rw [hf] at h
          dsimp only [] at h
          injection h with h1 h2 h3
          subst h1; subst h2
          exact ⟨rfl, rfl, fun _ => rfl, rfl⟩
      | ok pr =>
          rw [hf] at h
          dsimp only [] at h
          cases hp : processPage u i pr db (faults.pageFail pn) k with
          | error k2 =>
              rw [hp] at h
              dsimp only [] at h
              injection h with h1 h2 h3
              subst h1; subst h2
              exact ⟨rfl, rfl, fun _ => rfl, rfl⟩
          | ok p =>
              rw [hp] at h
              obtain ⟨db2, k2⟩ := p
              dsimp only [] at h
              have hfr := processPage_frame hp
              cases hhm : pr.has_more with
              | true =>
                  rw [hhm] at h
                  simp only [if_true] at h
                  obtain ⟨ha, hp2, hex, hid⟩ := ih pr.next_cursor db2 k2 true
                    (pn + 1) (tr ++ [cursor]) h
                  refine ⟨ha.trans hfr.1, hp2.trans hfr.2.1, ?_, hid⟩
                  intro it2
                  rw [hex it2, hfr.2.2.2.1 it2]
              | false =>
                  rw [hhm] at h
                  simp only [Bool.false_eq_true, if_false] at h
                  injection h with h1 h2 h3
                  subst h1; subst h2
                  exact ⟨hfr.1, hfr.2.1, hfr.2.2.2.1, rfl⟩

theorem pageLoop_trace (client : PlaidClientModel) (u i e : String) (nAcc : Nat)
    (faults : FaultSpec) :
    ∀ (fuel : Nat) (cursor : Option String) (db : DB) (k : Counts) (hm : Bool)
      (pn : Nat) (tr : List (Option String)),
    ∃ rest, (pageLoop client u i e nAcc faults (fuel + 1) cursor db k hm pn tr).trace =
      tr ++ cursor :: rest := by
  intro fuel
  induction fuel with
  | zero =>
      intro cursor db k hm pn tr
      rw [pageLoop]
      cases hf : client.transactions_sync_page u e cursor with
      | error msg => exact ⟨[], rfl⟩
      | ok pr =>
          dsimp only []
          cases hp : processPage u i pr db (faults.pageFail pn) k with
          | error k2 => exact ⟨[], rfl⟩
          | ok p =>
              obtain ⟨db2, k2⟩ := p
              dsimp only []
              cases hhm : pr.has_more with
              | true =>
                  simp only [if_true]
                  exact ⟨[], rfl⟩
              | false =>
                  simp only [Bool.false_eq_true, if_false]
                  exact ⟨[], rfl⟩
  | succ fuel ih =>
      intro cursor db k hm pn tr
      rw [pageLoop]
      cases hf : client.transactions_sync_page u e cursor with
      | error msg => exact ⟨[], rfl⟩
      | ok pr =>
          dsimp only []
          cases hp : processPage u i pr db (faults.pageFail pn) k with
          | error k2 => exact ⟨[], rfl⟩
          | ok p =>
              obtain ⟨db2, k2⟩ := p
              dsimp only []
              cases hhm : pr.has_more with
              | true =>
                  simp only [if_true]
                  obtain ⟨rest, hrest⟩ := ih pr.next_cursor db2 k2 true (pn + 1)
                    (tr ++ [cursor])
                  refine ⟨pr.next_cursor :: rest, ?_⟩
                  rw [hrest]
                  simp
              | false =>
                  simp only [Bool.false_eq_true, if_false]
                  exact ⟨[], rfl⟩

/-- Entry normal form of `sync_item` when the provider's account fetch
succeeds and neither the account phase nor the cursor load faults: it runs
the page loop from the stored cursor on the post-phase database. -/
theorem syncItem_entry (client : PlaidClientModel) (i e u : String) (db : DB)
    (faults : FaultSpec) (fuel : Nat) (accts : List PlaidAccount)
    (hga : client.get_accounts u e = .ok accts)
    (hfa : faults.accountsFail = none)
    (hcl : faults.cursorLoadFail = false) :
    ∃ dbB, syncItem client i e u db faults fuel =
        pageLoop client u i e accts.length faults fuel (getCursor db i) dbB
          ⟨0, 0, 0⟩ false 1 [] ∧
      dbB.transactions = db.transactions ∧
      getCursor dbB i = getCursor db i ∧
      stateRowExists dbB i = true ∧
      (∀ a ∈ accts, accountPresent dbB a.account_id = true) ∧
      ((∀ a ∈ accts, accountPresent db a.account_id = true) →
        dbB.accounts.length = db.accounts.length) ∧
      (∀ pid, accountPresent db pid = true → accountPresent dbB pid = true) := by
  obtain ⟨db1, hap, htx, hpi, hcur, hex, hpres, hmono, hlen⟩ :=
    accountsPhase_noFault u i accts db
  have hgf := get_or_create_sync_state_frame db1 i
  have hgc := getCursor_get_or_create db1 i
  refine ⟨(get_or_create_sync_state db1 i).1, ?_, ?_, ?_, ?_, ?_, ?_, ?_⟩
  · unfold syncItem
    rw [hga]
    dsimp only []
    rw [hfa, hap]
    dsimp only []
    rw [hcl]
    simp only [Bool.false_eq_true, if_false]
    rw [hgc.2.1, hcur]
  · rw [hgf.2.1, htx]
  · rw [hgc.1, hcur]
  · exact hgc.2.2
  · intro a ha
    rw [accountPresent_congr hgf.1]
    exact hpres a ha
  · intro hall
    have h1 := hlen hall
    rw [show (get_or_create_sync_state db1 i).1.accounts = db1.accounts from hgf.1]
    exact h1
  · intro pid hp
    rw [accountPresent_congr hgf.1]
    exact hmono pid hp

theorem accountsPhase_fault (u i : String) (accts : List PlaidAccount) (db : DB)
    (k : Nat) (hk : k < accts.length) :
    accountsPhase u i accts db (some (k + 1)) = .error k := by
  unfold accountsPhase
  have h0 : (({ db := db, opIdx := 0, failAt := some (k + 1) } : Conn).failAt ==
      some ({ db := db, opIdx := 0, failAt := some (k + 1) } : Conn).opIdx) = false := by
    simp only [beq_eq_false_iff_ne, ne_eq, Option.some.injEq]
    omega
  rw [Conn.step_noFail _ _ h0]
  show (match runAccountsUpserts u i accts
      { db := (get_or_create_sync_state db i).1, opIdx := 1, failAt := some (k + 1) } 0 with
    | Except.error n => Except.error n
    | Except.ok (c2, n) =>
        match c2.step (fun db => (update_accounts_last_synced_at db i, ())) with
        | Except.error _ => Except.error n
        | Except.ok (c3, _) => Except.ok (c3.db, n)) = Except.error k
  rw [runAccountsUpserts_fault u i accts
    { db := (get_or_create_sync_state db i).1, opIdx := 1, failAt := some (k + 1) }
    0 k (by show some (k + 1) = some (1 + k); congr 1; omega) hk]
  rw [Nat.zero_add]

/-- C7: for every upstream transaction the stored amount is the absolute
value of the signed amount and the stored classification follows the spec's
debit/credit rule (positive → debit, negative → credit, zero → credit exactly
on an INCOME-like category hint); in particular +12.50 maps to (12.50, debit),
−5 to (5, credit), and 0 with an "Income_Wages" hint to credit. -/
theorem C7_debit_credit_classification :
    (∀ (aid user : String) (t : PlaidTxn),
      (map_plaid_transaction_to_db_fields aid t user).amount = |t.amount| ∧
      (map_plaid_transaction_to_db_fields aid t user).type =
        classificationSpec t.amount (pfcPrimary t)) ∧
    ((map_plaid_transaction_to_db_fields "1" exTxPos "u1").amount = mkRat 25 2 ∧
      (map_plaid_transaction_to_db_fields "1" exTxPos "u1").type = "debit") ∧
    ((map_plaid_transaction_to_db_fields "1" exTxNeg "u1").amount = 5 ∧
      (map_plaid_transaction_to_db_fields "1" exTxNeg "u1").type = "credit") ∧
    ((map_plaid_transaction_to_db_fields "1" exTxZeroIncome "u1").amount = 0 ∧
      (map_plaid_transaction_to_db_fields "1" exTxZeroIncome "u1").type = "credit") := by
  refine ⟨?_, by constructor <;> decide, by constructor <;> decide,
    by constructor <;> decide⟩
  intro aid user t
  refine ⟨rfl, ?_⟩
  show infer_tx_type t.amount (pfcPrimary t) t.transaction_type =
    classificationSpec t.amount (pfcPrimary t)
  unfold infer_tx_type classificationSpec
  rcases lt_trichotomy t.amount 0 with h | h | h
  · have h1 : ¬(0 < t.amount) := asymm h
    simp only [if_pos h, if_neg h1]
  · have h0 : ¬(t.amount < 0) := by rw [h]; exact lt_irrefl 0
    have h0' : ¬(0 < t.amount) := by rw [h]; exact lt_irrefl 0
    simp only [if_neg h0, if_neg h0', gt_iff_lt]
    cases hp : pfcPrimary t with
    | none => simp
    | some s =>
        by_cases hs : s = ""
        · subst hs
          simp only [ne_eq, not_true_eq_false, if_false]
          have hf : strContains (upperStr "") "INCOME" = false := by decide
          simp [hf]
        · simp [hs]
  · have h1 : ¬(t.amount < 0) := asymm h
    simp only [if_neg h1, if_pos h, gt_iff_lt]

/-- C4: the plaid_item repository module defines no
`list_active_plaid_items_for_user`, so the orchestrator's enumeration step
raises on every call and `sync_all_items_for_user` never produces a list of
summaries. -/
theorem C4_enumeration_always_raises :
    "list_active_plaid_items_for_user" ∉ plaidItemRepoFunctions ∧
    ∀ (client : PlaidClientModel) (user_id : String) (db : DB)
      (faults : String → FaultSpec) (fuel : Nat),
      syncAllItemsForUser client user_id db faults fuel =
        .orRaised db "AttributeError: list_active_plaid_items_for_user" := by
  refine ⟨by decide, ?_⟩
  intro client user_id db faults fuel
  rfl

/-- C2 counterexample: with two added records on the very first delta page and
a storage fault at the second record's upsert, the page fails (error code
`page_processing_failed`) yet the summary reports `tx_added = 1` — a
contribution from the failed page itself, though no page was committed before
it (the trace shows the failed page was the first and only one requested). -/
theorem C2_counterexample_partial_counts :
    (syncItem clTwoAdds "i1" "itemX" "u1" exDB0 faultsPage1Op3 5).summary.map
        (fun s => (s.error_code, s.tx_added, s.tx_modified, s.tx_removed)) =
      some (some "page_processing_failed", 1, 0, 0) ∧
    (syncItem clTwoAdds "i1" "itemX" "u1" exDB0 faultsPage1Op3 5).trace = [none] :=
  ⟨rfl, rfl⟩

/-- C8 counterexample: a removed delta for external id "C" when no row with
that id ever existed still increments `tx_removed` to 1 (the code counts
`len(removed_ids)` and ignores the rowcount), where the claim requires 0. -/
theorem C8_counterexample_removed_count :
    (syncItem clRemoveC "i1" "itemX" "u1" exDB0 noFaults 5).summary.map
        (fun s => (s.tx_removed, s.error_code)) = some (1, none) ∧
    (syncItem clRemoveC "i1" "itemX" "u1" exDB0 noFaults 5).dbOf.map
        (fun d => countExt d "C") = some 0 ∧
    countExt exDB0 "C" = 0 :=
  ⟨rfl, rfl, rfl⟩

/-- C3 counterexample: a user with two enumerable active linked items gets no
summary list at all — the orchestrator raises at its enumeration step — so a
failure there does prevent every item from being attempted. -/
theorem C3_counterexample_no_summaries :
    syncAllItemsForUser clTwoAdds "u1" exDB0 (fun _ => noFaults) 5 =
      .orRaised exDB0 "AttributeError: list_active_plaid_items_for_user" ∧
    (list_active_plaid_items_for_user_spec exDB0 "u1").length = 2 :=
  ⟨rfl, rfl⟩

/-- C10: when the account-reconciliation unit of work faults at the
(k+1)-st upsert after k successful upsert calls, the whole unit rolls back
(the returned database is exactly the pre-phase one, so no account row from
the phase persists), the transaction phase is skipped, and the summary
reports `accounts_upserted = k` with error code `accounts_upsert_failed` —
the count reflects attempted upserts, not persisted rows. -/
theorem C10_accounts_upsert_failure_reports_attempts
    (client : PlaidClientModel) (item_db item_ext user : String) (db0 : DB)
    (faults : FaultSpec) (fuel : Nat) (accts : List PlaidAccount) (k : Nat)
    (hga : client.get_accounts user item_ext = .ok accts)
    (hk : k < accts.length)
    (hf : faults.accountsFail = some (k + 1)) :
    syncItem client item_db item_ext user db0 faults fuel =
      .outcomeOk db0
        (mkSummary item_ext k ⟨0, 0, 0⟩ false
          (some "accounts_upsert_failed") (some "db error")) [] := by
  unfold syncItem
  rw [hga]
  show (match accountsPhase user item_db accts db0 faults.accountsFail with
    | Except.error n =>
        SyncOutcome.outcomeOk db0
          (mkSummary item_ext n ⟨0, 0, 0⟩ false
            (some "accounts_upsert_failed") (some "db error")) []
    | Except.ok (db1, nAcc) =>
        if faults.cursorLoadFail then SyncOutcome.outcomeRaised db1 []
        else
          pageLoop client user item_db item_ext nAcc faults fuel
            (get_or_create_sync_state db1 item_db).2.transactions_cursor
            (get_or_create_sync_state db1 item_db).1 ⟨0, 0, 0⟩ false 1 []) = _
  rw [hf, accountsPhase_fault user item_db accts db0 k hk]

theorem C10_witness :
    1 < [exAcct, exAcct2].length ∧
    syncItem clTwoAccounts "i1" "itemX" "u1" exDB0 faultsAccountsOp2 7 =
      .outcomeOk exDB0
        (mkSummary "itemX" 1 ⟨0, 0, 0⟩ false
          (some "accounts_upsert_failed") (some "db error")) [] :=
  ⟨by decide,
    C10_accounts_upsert_failure_reports_attempts clTwoAccounts "i1" "itemX" "u1"
      exDB0 faultsAccountsOp2 7 [exAcct, exAcct2] 1 rfl (by decide) rfl⟩

/-- C2 (amended): when processing of one delta page fails, the page is rolled
back atomically — the loop returns the pre-page database, so no row mutation
and no cursor update from that page persists — the item's sync stops at that
page, and the summary carries error code `page_processing_failed` with the
counter values accumulated at the fault (those of the prior committed pages
plus the records of the failed page processed before the fault). -/
theorem C2_page_failure_rolls_back_and_stops
    (client : PlaidClientModel) (user item_db item_ext : String) (nAcc : Nat)
    (faults : FaultSpec) (fuel : Nat) (cursor : Option String) (db : DB)
    (k k' : Counts) (lastHM : Bool) (pageNum : Nat) (tr : List (Option String))
    (pr : PageResult)
    (hfetch : client.transactions_sync_page user item_ext cursor = .ok pr)
    (hfail : processPage user item_db pr db (faults.pageFail pageNum) k = .error k') :
    pageLoop client user item_db item_ext nAcc faults (fuel + 1) cursor db k
      lastHM pageNum tr =
      .outcomeOk db
        (mkSummary item_ext nAcc k' lastHM
          (some "page_processing_failed") (some "db error"))
        (tr ++ [cursor]) := by
  show (match client.transactions_sync_page user item_ext cursor with
    | Except.error msg =>
        SyncOutcome.outcomeOk db
          (mkSummary item_ext nAcc k lastHM
            (some "transactions_sync_failed") (some msg)) (tr ++ [cursor])
    | Except.ok pr =>
        match processPage user item_db pr db (faults.pageFail pageNum) k with
        | Except.error k' =>
            SyncOutcome.outcomeOk db
              (mkSummary item_ext nAcc k' lastHM
                (some "page_processing_failed") (some "db error")) (tr ++ [cursor])
        | Except.ok (db', k') =>
            if pr.has_more then
              pageLoop client user item_db item_ext nAcc faults fuel pr.next_cursor
                db' k' true (pageNum + 1) (tr ++ [cursor])
            else
              SyncOutcome.outcomeOk db'
                (mkSummary item_ext nAcc k' false none none) (tr ++ [cursor])) = _
  rw [hfetch]
  show (match processPage user item_db pr db (faults.pageFail pageNum) k with
    | Except.error k' =>
        SyncOutcome.outcomeOk db
          (mkSummary item_ext nAcc k' lastHM
            (some "page_processing_failed") (some "db error")) (tr ++ [cursor])
    | Except.ok (db', k') =>
        if pr.has_more then
          pageLoop client user item_db item_ext nAcc faults fuel pr.next_cursor
            db' k' true (pageNum + 1) (tr ++ [cursor])
        else
          SyncOutcome.outcomeOk db'
            (mkSummary item_ext nAcc k' false none none) (tr ++ [cursor])) = _
  rw [hfail]

theorem C2_witness :
    processPage "u1" "i1"
        { added := [txA, txB], modified := [], removed := [],
          next_cursor := some "c1", has_more := false } exDB0
        (faultsEveryPageOp0.pageFail 1) ⟨0, 0, 0⟩ = .error ⟨0, 0, 0⟩ ∧
    pageLoop clTwoAdds "u1" "i1" "itemX" 0 faultsEveryPageOp0 4 none exDB0
      ⟨0, 0, 0⟩ false 1 [] =
      .outcomeOk exDB0
        (mkSummary "itemX" 0 ⟨0, 0, 0⟩ false
          (some "page_processing_failed") (some "db error")) [none] :=
  ⟨rfl,
    C2_page_failure_rolls_back_and_stops clTwoAdds "u1" "i1" "itemX" 0
      faultsEveryPageOp0 3 none exDB0 ⟨0, 0, 0⟩ ⟨0, 0, 0⟩ false 1 []
      { added := [txA, txB], modified := [], removed := [],
        next_cursor := some "c1", has_more := false } rfl rfl⟩

/-! ### Lemmas for the remaining claims -/

/-- Upserting an added record whose external id already has a row updates in
place: no net new row. -/
theorem upsert_added_existing_length (db : DB) (data : TxFields) (eid : String)
    (hid : data.external_txn_id = some eid) (hex : 0 < countExt db eid) :
    (upsert_transaction_added db data).transactions.length =
      db.transactions.length := by
  unfold upsert_transaction_added
  rw [hid]
  have hany : (db.transactions.any (fun t => t.external_txn_id == some eid)) = true := by
    rw [List.any_eq_true]
    obtain ⟨t, hmem, hp⟩ := List.countP_pos_iff.mp hex
    exact ⟨t, hmem, hp⟩
  dsimp only []
  rw [hany]
  simp

theorem syncItem_summary_id {client : PlaidClientModel} {i e u : String} {db : DB}
    {faults : FaultSpec} {fuel : Nat} {d' : DB} {s : SyncSummary}
    {tr : List (Option String)}
    (h : syncItem client i e u db faults fuel = .outcomeOk d' s tr) :
    s.plaid_item_id = e := by
  unfold syncItem at h
  cases hga : client.get_accounts u e with
  | error msg =>
      rw [hga] at h
      dsimp only [] at h
      injection h with h1 h2 h3
      subst h2
      rfl
  | ok accts =>
      rw [hga] at h
      dsimp only [] at h
      cases hap : accountsPhase u i accts db faults.accountsFail with
      | error n =>
          rw [hap] at h
          dsimp only [] at h
          injection h with h1 h2 h3
          subst h2
          rfl
      | ok p =>
          rw [hap] at h
          obtain ⟨db1, nAcc⟩ := p
          dsimp only [] at h
          cases hcl : faults.cursorLoadFail with
          | true => rw [hcl] at h; simp only [if_true] at h; cases h
          | false =>
              rw [hcl] at h
              simp only [Bool.false_eq_true, if_false] at h
              exact (pageLoop_ok_inv client u i e nAcc faults fuel _ _ _ _ _ _ h).2.2.2

theorem syncItemsLoop_total (client : PlaidClientModel) (u : String)
    (faults : String → FaultSpec) (fuel : Nat) :
    ∀ (items : List ItemRow) (db : DB) (acc : List SyncSummary),
    (∀ it ∈ items, ∀ d : DB, ∃ d' s tr,
      syncItem client it.id it.item_id u d (faults it.id) fuel = .outcomeOk d' s tr) →
    ∃ db' ss, syncItemsLoop client u faults fuel items db acc = .orOk db' (acc ++ ss) ∧
      ss.length = items.length ∧
      ss.map (fun s => s.plaid_item_id) = items.map (fun it => it.item_id) := by
  intro items
  induction items with
  | nil =>
      intro db acc _
      exact ⟨db, [], by rw [List.append_nil]; rfl, rfl, rfl⟩
  | cons it rest ih =>
      intro db acc hok
      obtain ⟨d', s, tr, heq⟩ := hok it (List.mem_cons_self it rest) db
      obtain ⟨db', ss', hloop, hlen, hmap⟩ := ih d' (acc ++ [s])
        (fun it2 h2 d => hok it2 (List.mem_cons_of_mem it h2) d)
      refine ⟨db', s :: ss', ?_, ?_, ?_⟩
      · rw [syncItemsLoop, heq]
        show syncItemsLoop client u faults fuel rest d' (acc ++ [s]) = _
        rw [hloop]
        congr 1
        simp
      · simp [hlen]
      · simp only [List.map_cons, hmap]
        congr 1
        exact syncItem_summary_id heq

/-- A provider that reports no accounts-fetch error and a single empty,
final delta page at every cursor lets `sync_item` complete. -/
theorem syncItem_ok_of_empty (client : PlaidClientModel) (i e u : String) (db : DB)
    (fuel : Nat) (accts : List PlaidAccount)
    (hga : client.get_accounts u e = .ok accts)
    (hpg : ∀ c, client.transactions_sync_page u e c = .ok (emptyPage none false)) :
    ∃ d' s tr, syncItem client i e u db noFaults (fuel + 1) = .outcomeOk d' s tr := by
  obtain ⟨dbB, hsync, _⟩ := syncItem_entry client i e u db noFaults (fuel + 1) accts
    hga rfl rfl
  rw [hsync, pageLoop, hpg (getCursor db i)]
  dsimp only []
  have hnf : noFaults.pageFail 1 = none := rfl
  rw [hnf, processPage_empty]
  dsimp only []
  simp only [emptyPage, Bool.false_eq_true, if_false]
  exact ⟨_, _, _, rfl⟩

/-- C5: if one delta page commits (with more pages signalled) and the next
page's processing fails, the pagination stops with the stored cursor equal to
the committed page's next cursor — the cursor update and the page's row
mutations committed together, and the failed page left nothing — and a next
invocation of `sync_item` requests its first delta page with exactly that
stored cursor. -/
theorem C5_cursor_monotonic_resume (client client2 : PlaidClientModel)
    (u i e : String) (nAcc : Nat) (faults faults2 : FaultSpec)
    (fuel fuel2 : Nat) (cursor : Option String) (db db1 : DB)
    (k k1 k2 : Counts) (hm : Bool) (pn : Nat) (tr : List (Option String))
    (pr1 pr2 : PageResult) (accts2 : List PlaidAccount)
    (hex : stateRowExists db i = true)
    (h1 : client.transactions_sync_page u e cursor = .ok pr1)
    (hp1 : processPage u i pr1 db (faults.pageFail pn) k = .ok (db1, k1))
    (hm1 : pr1.has_more = true)
    (h2 : client.transactions_sync_page u e pr1.next_cursor = .ok pr2)
    (hp2 : processPage u i pr2 db1 (faults.pageFail (pn + 1)) k1 = .error k2)
    (hga2 : client2.get_accounts u e = .ok accts2)
    (hfa2 : faults2.accountsFail = none)
    (hcl2 : faults2.cursorLoadFail = false) :
    pageLoop client u i e nAcc faults (fuel + 2) cursor db k hm pn tr =
      .outcomeOk db1
        (mkSummary e nAcc k2 true (some "page_processing_failed") (some "db error"))
        (tr ++ [cursor, pr1.next_cursor]) ∧
    getCursor db1 i = pr1.next_cursor ∧
    (syncItem client2 i e u db1 faults2 (fuel2 + 1)).trace.head? =
      some pr1.next_cursor := by
  have hcur : getCursor db1 i = pr1.next_cursor :=
    (processPage_frame hp1).2.2.2.2 hex
  refine ⟨?_, hcur, ?_⟩
  · show pageLoop client u i e nAcc faults (fuel + 1 + 1) cursor db k hm pn tr = _
    rw [pageLoop, h1]
    dsimp only []
    rw [hp1]
    dsimp only []
    rw [hm1]
    simp only [if_true]
    rw [C2_page_failure_rolls_back_and_stops client u i e nAcc faults fuel
      pr1.next_cursor db1 k1 k2 true (pn + 1) (tr ++ [cursor]) pr2 h2 hp2]
    simp
  · obtain ⟨dbB2, hsync2, _, hcurB2, _⟩ := syncItem_entry client2 i e u db1 faults2
      (fuel2 + 1) accts2 hga2 hfa2 hcl2
    rw [hsync2]
    obtain ⟨rest, hrest⟩ := pageLoop_trace client2 u i e accts2.length faults2 fuel2
      (getCursor db1 i) dbB2 ⟨0, 0, 0⟩ false 1 []
    rw [hrest, hcur]
    rfl

theorem C5_witness :
    stateRowExists dbC5 "i1" = true ∧
    pageLoop clC5 "u1" "i1" "itemX" 0 faultsPage2Op0 2 none dbC5 ⟨0, 0, 0⟩
        false 1 [] =
      .outcomeOk (update_sync_cursor dbC5 "i1" (some "c1"))
        (mkSummary "itemX" 0 ⟨0, 0, 0⟩ true
          (some "page_processing_failed") (some "db error"))
        [none, some "c1"] ∧
    getCursor (update_sync_cursor dbC5 "i1" (some "c1")) "i1" = some "c1" ∧
    (syncItem clC5 "i1" "itemX" "u1" (update_sync_cursor dbC5 "i1" (some "c1"))
        noFaults 1).trace.head? = some (some "c1") :=
  ⟨rfl,
    C5_cursor_monotonic_resume clC5 clC5 "u1" "i1" "itemX" 0 faultsPage2Op0
      noFaults 0 0 none dbC5 (update_sync_cursor dbC5 "i1" (some "c1"))
      ⟨0, 0, 0⟩ ⟨0, 0, 0⟩ ⟨0, 0, 0⟩ false 1 []
      (emptyPage (some "c1") true) (emptyPage (some "c2") false) []
      rfl rfl rfl rfl rfl rfl rfl rfl rfl⟩

/-- C6: re-running `sync_item` against unchanged provider state — the same
account list, and an empty final delta page served at the stored cursor —
creates zero net new rows: the account table keeps its length (upserts by
plaid_account_id overwrite in place) and the transaction table is unchanged;
moreover any re-delivered added record whose external id already has a row
updates in place rather than inserting a duplicate. -/
theorem C6_resync_idempotent (client1 client2 : PlaidClientModel)
    (i e u : String) (db0 db1 : DB) (fuel1 fuel2 : Nat)
    (accts : List PlaidAccount) (s1 : SyncSummary) (tr1 : List (Option String))
    (nc2 : Option String)
    (hga1 : client1.get_accounts u e = .ok accts)
    (hrun1 : syncItem client1 i e u db0 noFaults fuel1 = .outcomeOk db1 s1 tr1)
    (hga2 : client2.get_accounts u e = .ok accts)
    (hpg2 : client2.transactions_sync_page u e (getCursor db1 i) =
      .ok (emptyPage nc2 false)) :
    ∃ db2 s2 tr2, syncItem client2 i e u db1 noFaults (fuel2 + 1) =
        .outcomeOk db2 s2 tr2 ∧
      db2.accounts.length = db1.accounts.length ∧
      db2.transactions = db1.transactions ∧
      (∀ (db : DB) (data : TxFields) (eid : String),
        data.external_txn_id = some eid → 0 < countExt db eid →
        (upsert_transaction_added db data).transactions.length =
          db.transactions.length) := by
  obtain ⟨dbB1, hsync1, _, _, _, hpresB1, _, _⟩ :=
    syncItem_entry client1 i e u db0 noFaults fuel1 accts hga1 rfl rfl
  rw [hsync1] at hrun1
  obtain ⟨hacc1, _, _, _⟩ := pageLoop_ok_inv client1 u i e accts.length noFaults
    fuel1 _ _ _ _ _ _ hrun1
  have hpres1 : ∀ a ∈ accts, accountPresent db1 a.account_id = true := by
    intro a ha
    rw [accountPresent_congr hacc1]
    exact hpresB1 a ha
  obtain ⟨dbB2, hsync2, htxB2, hcurB2, _, _, hlenB2, _⟩ :=
    syncItem_entry client2 i e u db1 noFaults (fuel2 + 1) accts hga2 rfl rfl
  have hlen2 : dbB2.accounts.length = db1.accounts.length := hlenB2 hpres1
  refine ⟨update_sync_cursor dbB2 i nc2,
    mkSummary e accts.length ⟨0, 0, 0⟩ false none none,
    [getCursor db1 i], ?_, ?_, ?_, ?_⟩
  · rw [hsync2, pageLoop, hpg2]
    dsimp only []
    have hnf : noFaults.pageFail 1 = none := rfl
    rw [hnf, processPage_empty]
    dsimp only []
    simp only [emptyPage, Bool.false_eq_true, if_false]
    rfl
  · rw [(update_sync_cursor_frame dbB2 i nc2).1]
    exact hlen2
  · rw [(update_sync_cursor_frame dbB2 i nc2).2.1]
    exact htxB2
  · exact upsert_added_existing_length

theorem C6_witness :
    clC6.get_accounts "u1" "itemX" = .ok [exAcct] ∧
    (∃ db2 s2 tr2, syncItem clC6 "i1" "itemX" "u1"
        (update_sync_cursor (get_or_create_sync_state
          (update_accounts_last_synced_at (upsert_plaid_account
            (get_or_create_sync_state exDB0 "i1").1
            (map_plaid_account_to_db_fields "u1" "i1" exAcct)).1 "i1") "i1").1
          "i1" none) noFaults 3 = .outcomeOk db2 s2 tr2 ∧
      db2.accounts.length = 1 ∧
      db2.transactions = []) := by
  refine ⟨rfl, ?_⟩
  obtain ⟨db2, s2, tr2, hrun, hlen, htx, _⟩ := C6_resync_idempotent clC6 clC6
    "i1" "itemX" "u1" exDB0 _ 5 2 [exAcct] _ _ none rfl rfl rfl rfl
  exact ⟨db2, s2, tr2, hrun, by rw [hlen]; rfl, by rw [htx]; rfl⟩

/-- C8 (amended): a delta page of removed records adds exactly the number of
removed records to `tx_removed`, whether or not matching rows existed (the
repository rowcount is discarded); the soft delete itself never adds or
removes rows, leaves every row that is not a user-owned match unchanged,
keeps the deletion timestamp of already-deleted rows, and marks matched
live rows deleted. -/
theorem C8_removed_counts_every_record (u i : String) (rs : List PlaidRemoved)
    (nc : Option String) (hm : Bool) (db : DB) (k : Counts) :
    ∃ db', processPage u i (removedPage rs nc hm) db none k =
        .ok (db', { k with tx_removed := k.tx_removed + rs.length }) ∧
      db'.transactions.length = db.transactions.length ∧
      (∀ t ∈ db.transactions, t.deleted_at.isSome = true →
        ∃ t' ∈ db'.transactions, t'.id = t.id ∧ t'.deleted_at = t.deleted_at) ∧
      (∀ t ∈ db.transactions,
        removedMatches db u (rs.map (·.transaction_id)) t = false →
        t ∈ db'.transactions) ∧
      (∀ t ∈ db.transactions,
        removedMatches db u (rs.map (·.transaction_id)) t = true →
        ∃ t' ∈ db'.transactions, t'.id = t.id ∧ t'.deleted_at.isSome = true) := by
  by_cases hrs : ((rs.map (·.transaction_id)).isEmpty) = true
  · have hrs0 : rs = [] := by
      cases rs with
      | nil => rfl
      | cons r rs => simp [List.isEmpty] at hrs
    subst hrs0
    refine ⟨update_sync_cursor db i nc, rfl, rfl, ?_, ?_, ?_⟩
    · intro t hmem hdel
      exact ⟨t, hmem, rfl, rfl⟩
    · intro t hmem _
      exact hmem
    · intro t _ hmatch
      exfalso
      unfold removedMatches at hmatch
      rw [Bool.and_eq_true] at hmatch
      rcases hmatch with ⟨-, hm2⟩
      cases hext : t.external_txn_id <;> rw [hext] at hm2 <;> simp at hm2
  · have hne : ((rs.map (·.transaction_id)).isEmpty) = false :=
      Bool.not_eq_true _ ▸ Bool.eq_false_iff.mpr hrs
    have happ : (apply_transaction_removed db u (rs.map (·.transaction_id))).1 =
        { db with transactions := db.transactions.map (fun t =>
            if removedMatches db u (rs.map (·.transaction_id)) t then
              { t with
                  deleted_at := match t.deleted_at with
                    | some d => some d
                    | none => some db.now
                  updated_at := db.now }
            else t) } := by
      unfold apply_transaction_removed
      rw [hne]
      rfl
    have hstep : processRemovedStep u rs { db := db, opIdx := 0, failAt := none } k =
        .ok ({ db := (apply_transaction_removed db u (rs.map (·.transaction_id))).1,
               opIdx := 1, failAt := none },
             { k with tx_removed := k.tx_removed + rs.length }) := by
      unfold processRemovedStep
      rw [hne]
      simp only [Bool.false_eq_true, if_false]
      rw [Conn.step_none { db := db, opIdx := 0, failAt := none } _ rfl]
      rw [List.length_map]
    refine ⟨update_sync_cursor
      (apply_transaction_removed db u (rs.map (·.transaction_id))).1 i nc,
      ?_, ?_, ?_, ?_, ?_⟩
    · show (match processRemovedStep u rs { db := db, opIdx := 0, failAt := none } k with
        | Except.error k' => (Except.error k' : Except Counts (DB × Counts))
        | Except.ok (c3, k3) =>
            match c3.step (fun db => (update_sync_cursor db i nc, ())) with
            | Except.error _ => Except.error k3
            | Except.ok (c4, _) => Except.ok (c4.db, k3)) = _
      rw [hstep]
      dsimp only []
      rw [Conn.step_none { db := (apply_transaction_removed db u
        (rs.map (·.transaction_id))).1, opIdx := 1, failAt := none } _ rfl]
    · show (apply_transaction_removed db u (rs.map (·.transaction_id))).1.transactions.length = _
      rw [happ]
      exact List.length_map db.transactions _
    · intro t hmem hdel
      have hlist : (update_sync_cursor
          (apply_transaction_removed db u (rs.map (·.transaction_id))).1 i nc).transactions =
          db.transactions.map (fun t =>
            if removedMatches db u (rs.map (·.transaction_id)) t then
              ({ t with
                  deleted_at := match t.deleted_at with
                    | some d => some d
                    | none => some db.now
                  updated_at := db.now } : TxnRow)
            else t) := by
        rw [happ]
        rfl
      rw [hlist]
      refine ⟨_, List.mem_map_of_mem _ hmem, ?_, ?_⟩
      · by_cases hmatch : removedMatches db u (rs.map (·.transaction_id)) t = true <;>
          simp [hmatch]
      · by_cases hmatch : removedMatches db u (rs.map (·.transaction_id)) t = true
        · obtain ⟨d, hd⟩ := Option.isSome_iff_exists.mp hdel
          simp [hmatch, hd]
        · simp [hmatch]
    · intro t hmem hmatch
      show t ∈ (apply_transaction_removed db u (rs.map (·.transaction_id))).1.transactions
      rw [happ]
      have : (fun t => if removedMatches db u (rs.map (·.transaction_id)) t then
          ({ t with
              deleted_at := match t.deleted_at with
                | some d => some d
                | none => some db.now
              updated_at := db.now } : TxnRow)
          else t) t = t := by
        simp only [hmatch, Bool.false_eq_true, if_false]
      rw [← this]
      exact List.mem_map_of_mem _ hmem
    · intro t hmem hmatch
      have hlist : (update_sync_cursor
          (apply_transaction_removed db u (rs.map (·.transaction_id))).1 i nc).transactions =
          db.transactions.map (fun t =>
            if removedMatches db u (rs.map (·.transaction_id)) t then
              ({ t with
                  deleted_at := match t.deleted_at with
                    | some d => some d
                    | none => some db.now
                  updated_at := db.now } : TxnRow)
            else t) := by
        rw [happ]
        rfl
      rw [hlist]
      refine ⟨_, List.mem_map_of_mem _ hmem, ?_, ?_⟩
      · simp [hmatch]
      · simp only [hmatch, if_true]
        cases t.deleted_at <;> simp

theorem countP_congr_mem {α : Type} (l : List α) (p q : α → Bool)
    (h : ∀ a ∈ l, p a = q a) : l.countP p = l.countP q := by
  induction l with
  | nil => rfl
  | cons a l ih =>
      simp only [List.countP_cons, h a (List.mem_cons_self a l)]
      rw [ih (fun b hb => h b (List.mem_cons_of_mem a hb))]

theorem countP_false_zero {α : Type} (l : List α) :
    l.countP (fun _ => false) = 0 := by
  induction l with
  | nil => rfl
  | cons a l ih => simp [List.countP_cons, ih]

/-- C9: a transaction soft-deleted by a removed delta and later re-added
under the same external id becomes visible again as the same row — the
deletion marker is cleared and the mutable fields updated in place — with no
duplication, and at no point do two non-deleted rows with that external id
exist (the live count is 1, then 0 after the removal, then 1 again). -/
theorem C9_soft_delete_reversible (u E : String) (db : DB) (data : TxFields)
    (h1 : countExt db E = 1)
    (h2 : ∀ t ∈ db.transactions, (t.external_txn_id == some E) = true →
      (db.accounts.any (fun a => a.id == t.account_id && a.user_id == u)) = true ∧
      t.deleted_at = none)
    (hdata : data.external_txn_id = some E) :
    countExtLive db E = 1 ∧
    countExtLive (apply_transaction_removed db u [E]).1 E = 0 ∧
    countExt (apply_transaction_removed db u [E]).1 E = 1 ∧
    countExt (upsert_transaction_added
      (apply_transaction_removed db u [E]).1 data) E = 1 ∧
    countExtLive (upsert_transaction_added
      (apply_transaction_removed db u [E]).1 data) E = 1 ∧
    (upsert_transaction_added
      (apply_transaction_removed db u [E]).1 data).transactions.length =
      db.transactions.length ∧
    (∀ t' ∈ (upsert_transaction_added
        (apply_transaction_removed db u [E]).1 data).transactions,
      (t'.external_txn_id == some E) = true →
      t'.deleted_at = none ∧ t'.amount = data.amount ∧ t'.pending = data.pending ∧
      ∃ t0 ∈ db.transactions, (t0.external_txn_id == some E) = true ∧
        t'.id = t0.id) := by
  have hA : (apply_transaction_removed db u [E]).1 =
      { db with transactions := db.transactions.map (fun t =>
          if removedMatches db u [E] t then
            { t with
                deleted_at := match t.deleted_at with
                  | some d => some d
                  | none => some db.now
                updated_at := db.now }
          else t) } := rfl
  -- a row matches the removal exactly when it carries external id E
  have hmatchE : ∀ t ∈ db.transactions,
      removedMatches db u [E] t = (t.external_txn_id == some E) := by
    intro t hmem
    unfold removedMatches
    cases hext : t.external_txn_id with
    | none => simp
    | some e =>
        by_cases he : e = E
        · subst he
          have := h2 t hmem (by rw [hext]; exact beq_self_eq_true _)
          simp [this.1, List.contains]
        · simp [List.contains, he, hext]
  have hcount1 : countExt (apply_transaction_removed db u [E]).1 E = 1 := by
    unfold countExt
    rw [hA]
    rw [countP_map_eq db.transactions _ _
      (fun t => t.external_txn_id == some E) ?_]
    · exact h1
    · intro t _
      by_cases hmatch : removedMatches db u [E] t = true <;> simp [hmatch]
  have hlive0 : countExtLive (apply_transaction_removed db u [E]).1 E = 0 := by
    unfold countExtLive
    rw [hA]
    rw [countP_map_eq db.transactions _ _ (fun _ => false) ?_]
    · exact countP_false_zero _
    · intro t hmem
      by_cases hext : (t.external_txn_id == some E) = true
      · have hmt : removedMatches db u [E] t = true := by
          rw [hmatchE t hmem]; exact hext
        obtain ⟨-, hdel⟩ := h2 t hmem hext
        simp only [hmt, if_true]
        rw [hdel]
        simp
      · have hmt : removedMatches db u [E] t = false := by
          rw [hmatchE t hmem]
          exact Bool.not_eq_true _ ▸ Bool.eq_false_iff.mpr hext
        simp only [hmt, Bool.false_eq_true, if_false]
        rw [Bool.not_eq_true] at hext
        simp [hext]
  have hanyB : ((apply_transaction_removed db u [E]).1.transactions.any
      (fun t => t.external_txn_id == some E)) = true := by
    rw [List.any_eq_true]
    have : 0 < countExt (apply_transaction_removed db u [E]).1 E := by
      rw [hcount1]; exact Nat.zero_lt_one
    exact List.countP_pos_iff.mp this
  have hB : upsert_transaction_added (apply_transaction_removed db u [E]).1 data =
      { (apply_transaction_removed db u [E]).1 with
        transactions := (apply_transaction_removed db u [E]).1.transactions.map
          (fun t => if t.external_txn_id == some E then
            { t with
                account_id := data.account_id
                amount := data.amount
                currency := data.currency
                type := data.type
                merchant_name := data.merchant_name
                description := data.description
                category := data.category
                authorized_date := data.authorized_date
                posted_date := data.posted_date
                pending := data.pending
                original_payer_user_id := data.original_payer_user_id
                updated_at := (apply_transaction_removed db u [E]).1.now
                deleted_at := none }
          else t) } := by
    unfold upsert_transaction_added
    rw [hdata]
    dsimp only []
    rw [hanyB]
    rfl
  refine ⟨?_, hlive0, hcount1, ?_, ?_, ?_, ?_⟩
  · unfold countExtLive
    rw [countP_congr_mem db.transactions _ (fun t => t.external_txn_id == some E) ?_]
    · exact h1
    · intro t hmem
      by_cases hext : (t.external_txn_id == some E) = true
      · obtain ⟨-, hdel⟩ := h2 t hmem hext
        rw [hdel]
        simp [hext]
      · rw [Bool.not_eq_true] at hext
        simp [hext]
  · unfold countExt
    rw [hB]
    dsimp only []
    rw [countP_map_eq _ _ _ (fun t => t.external_txn_id == some E) ?_]
    · exact hcount1
    · intro t _
      by_cases hext : (t.external_txn_id == some E) = true <;> simp [hext]
  · unfold countExtLive
    rw [hB]
    dsimp only []
    rw [countP_map_eq _ _ _ (fun t => t.external_txn_id == some E) ?_]
    · exact hcount1
    · intro t _
      by_cases hext : (t.external_txn_id == some E) = true <;> simp [hext]
  · rw [hB]
    dsimp only []
    rw [List.length_map, hA]
    dsimp only []
    rw [List.length_map]
  · intro t' hmem hext
    rw [hB] at hmem
    dsimp only [] at hmem
    obtain ⟨s, hs, hst⟩ := List.mem_map.mp hmem
    rw [hA] at hs
    dsimp only [] at hs
    obtain ⟨t0, ht0, hts⟩ := List.mem_map.mp hs
    subst hts
    subst hst
    by_cases hext0 : (t0.external_txn_id == some E) = true
    · by_cases hmatch : removedMatches db u [E] t0 = true
      · simp only [hmatch, if_true] at hext ⊢
        simp only [hext0, if_true]
        refine ⟨?_, ?_, ?_, t0, ht0, hext0, ?_⟩ <;> simp
      · simp only [hmatch, Bool.false_eq_true, if_false] at hext ⊢
        simp only [hext0, if_true]
        refine ⟨?_, ?_, ?_, t0, ht0, hext0, ?_⟩ <;> simp
    · exfalso
      rw [Bool.not_eq_true] at hext0
      by_cases hmatch : removedMatches db u [E] t0 = true
      · simp only [hmatch, if_true] at hext
        simp [hext0] at hext
      · simp only [hmatch, Bool.false_eq_true, if_false] at hext
        simp [hext0] at hext

/-- A page whose only content is one added record reduces to that record's
processing followed by the cursor update. -/
theorem processPage_added1_eq (u i : String) (t : PlaidTxn) (nc : Option String)
    (hmB : Bool) (db : DB) (k : Counts) (c2 : Conn) (k2 : Counts)
    (hone : processAdded1 u i t { db := db, opIdx := 0, failAt := none } k =
      .ok (c2, k2))
    (hf2 : c2.failAt = none) :
    processPage u i (addedPage t nc hmB) db none k =
      .ok (update_sync_cursor c2.db i nc, k2) := by
  unfold processPage
  show (match processAddedList u i [t] { db := db, opIdx := 0, failAt := none } k with
    | Except.error k' => (Except.error k' : Except Counts (DB × Counts))
    | Except.ok (c1, k1) =>
        match processModifiedList u [] c1 k1 with
        | Except.error k' => Except.error k'
        | Except.ok (c2, k2) =>
            match processRemovedStep u [] c2 k2 with
            | Except.error k' => Except.error k'
            | Except.ok (c3, k3) =>
                match c3.step (fun db => (update_sync_cursor db i nc, ())) with
                | Except.error _ => Except.error k3
                | Except.ok (c4, _) => Except.ok (c4.db, k3)) = _
  have hlist : processAddedList u i [t] { db := db, opIdx := 0, failAt := none } k =
      .ok (c2, k2) := by
    rw [processAddedList, hone]
    rfl
  rw [hlist]
  dsimp only []
  rw [show processModifiedList u [] c2 k2 = .ok (c2, k2) from rfl]
  dsimp only []
  rw [show processRemovedStep u [] c2 k2 = .ok (c2, k2) from rfl]
  dsimp only []
  rw [Conn.step_none c2 _ hf2]

/-- C1: for an added record carrying a pending-counterpart id P and a posted
id Q, processing its page relinks in place when a row under P exists — after
the commit exactly one row carries an id in {P, Q}, it carries Q, its pending
flag is false, its mutable fields equal the mapped posted record, and the
record is counted as modified, not added; when no row under P exists the
record is upserted under Q and counted as added. -/
theorem C1_pending_posted_reconciliation (u i : String) (t : PlaidTxn) (db : DB)
    (k : Counts) (nc : Option String) (hmB : Bool) (P Q aid : String)
    (hP : t.pending_transaction_id = some P)
    (hQ : t.transaction_id = some Q)
    (hPne : P ≠ "") (hQne : Q ≠ "") (hPQ : P ≠ Q)
    (hacct : get_account_id_by_plaid_account_id db u i t.account_id = some aid) :
    (countExt db P = 1 → countExt db Q = 0 →
      ∃ db', processPage u i (addedPage t nc hmB) db none k =
          .ok (db', { k with tx_modified := k.tx_modified + 1 }) ∧
        db'.transactions.length = db.transactions.length ∧
        countExt db' P = 0 ∧ countExt db' Q = 1 ∧
        (∀ r ∈ db'.transactions, (r.external_txn_id == some Q) = true →
          r.pending = false ∧
          r.amount = (map_plaid_transaction_to_db_fields aid t u).amount ∧
          r.currency = (map_plaid_transaction_to_db_fields aid t u).currency ∧
          r.type = (map_plaid_transaction_to_db_fields aid t u).type ∧
          r.merchant_name = (map_plaid_transaction_to_db_fields aid t u).merchant_name ∧
          r.description = (map_plaid_transaction_to_db_fields aid t u).description ∧
          r.category = (map_plaid_transaction_to_db_fields aid t u).category ∧
          r.authorized_date = (map_plaid_transaction_to_db_fields aid t u).authorized_date ∧
          r.posted_date = (map_plaid_transaction_to_db_fields aid t u).posted_date)) ∧
    (countExt db P = 0 → countExt db Q = 0 →
      ∃ db', processPage u i (addedPage t nc hmB) db none k =
          .ok (db', { k with tx_added := k.tx_added + 1 }) ∧
        db'.transactions.length = db.transactions.length + 1 ∧
        countExt db' Q = 1) := by
  have hne2 : (P != "" && Q != "") = true := by
    rw [Bool.and_eq_true]
    exact ⟨bne_iff_ne.mpr hPne, bne_iff_ne.mpr hQne⟩
  constructor
  · -- relink branch: a row under P exists
    intro hc1 hc2
    have hrel : (relink_pending_to_posted db P Q
        (map_plaid_transaction_to_db_fields aid t u)).2 = true := by
      show decide (0 < db.transactions.countP
        (fun r => r.external_txn_id == some P)) = true
      rw [show db.transactions.countP (fun r => r.external_txn_id == some P) = 1
        from hc1]
      rfl
    have hone : processAdded1 u i t { db := db, opIdx := 0, failAt := none } k =
        .ok
          ({ db :=
               (relink_pending_to_posted db P Q
                 (map_plaid_transaction_to_db_fields aid t u)).1,
             opIdx := 0 + 1 + 1, failAt := none },
           { k with tx_modified := k.tx_modified + 1 }) := by
      unfold processAdded1
      rw [Conn.step_none { db := db, opIdx := 0, failAt := none } _ rfl]
      dsimp only []
      rw [hacct]
      dsimp only []
      rw [hP, hQ]
      dsimp only []
      rw [if_pos hne2]
      rw [Conn.step_none { db := db, opIdx := 0 + 1, failAt := none } _ rfl]
      dsimp only []
      rw [if_pos hrel]
    refine ⟨update_sync_cursor (relink_pending_to_posted db P Q
        (map_plaid_transaction_to_db_fields aid t u)).1 i nc,
      processPage_added1_eq u i t nc hmB db k _ _ hone rfl, ?_, ?_, ?_, ?_⟩
    · show (db.transactions.map (relinkUpd
        (map_plaid_transaction_to_db_fields aid t u) db.now P Q)).length =
        db.transactions.length
      exact List.length_map db.transactions _
    · show (db.transactions.map (relinkUpd
        (map_plaid_transaction_to_db_fields aid t u) db.now P Q)).countP
        (fun r => r.external_txn_id == some P) = 0
      rw [countP_map_eq db.transactions _ _ (fun _ => false) ?_]
      · exact countP_false_zero _
      · intro r _
        by_cases hr : (r.external_txn_id == some P) = true
        · simp only [relinkUpd, hr, if_true]
          show ((some Q : Option String) == some P) = false
          rw [beq_eq_false_iff_ne]
          intro hcon
          exact hPQ (Option.some.inj hcon).symm
        · rw [Bool.not_eq_true] at hr
          simp only [relinkUpd, hr, Bool.false_eq_true, if_false]
    · show (db.transactions.map (relinkUpd
        (map_plaid_transaction_to_db_fields aid t u) db.now P Q)).countP
        (fun r => r.external_txn_id == some Q) = 1
      rw [countP_map_eq db.transactions _ _
        (fun r => (r.external_txn_id == some P) || (r.external_txn_id == some Q)) ?_]
      · rw [countP_or_disjoint db.transactions _ _ ?_]
        · rw [show db.transactions.countP (fun r => r.external_txn_id == some P) = 1
            from hc1]
          rw [show db.transactions.countP (fun r => r.external_txn_id == some Q) = 0
            from hc2]
        · intro r _ hcon
          obtain ⟨h1, h2⟩ := hcon
          rw [beq_iff_eq] at h1 h2
          rw [h1] at h2
          exact hPQ (Option.some.inj h2)
      · intro r _
        by_cases hr : (r.external_txn_id == some P) = true
        · simp only [relinkUpd, hr, if_true, Bool.true_or]
          show ((some Q : Option String) == some Q) = true
          exact beq_self_eq_true _
        · rw [Bool.not_eq_true] at hr
          simp only [relinkUpd, hr, Bool.false_eq_true, if_false, Bool.false_or]
    · intro r hmem hrQ
      have hmem' : r ∈ db.transactions.map (relinkUpd
          (map_plaid_transaction_to_db_fields aid t u) db.now P Q) := hmem
      obtain ⟨r0, hr0, hrr⟩ := List.mem_map.mp hmem'
      by_cases h0 : (r0.external_txn_id == some P) = true
      · rw [← hrr]
        simp only [relinkUpd, h0, if_true]
        exact ⟨trivial, trivial, trivial, trivial, trivial, trivial, trivial,
          trivial, trivial⟩
      · exfalso
        rw [Bool.not_eq_true] at h0
        rw [← hrr] at hrQ
        simp only [relinkUpd, h0, Bool.false_eq_true, if_false] at hrQ
        have := List.countP_eq_zero.mp
          (show db.transactions.countP (fun r => r.external_txn_id == some Q) = 0
            from hc2) r0 hr0
        exact this hrQ
  · -- upsert branch: no row under P exists
    intro hc1 hc2
    have hrel0 : (relink_pending_to_posted db P Q
        (map_plaid_transaction_to_db_fields aid t u)).2 = false := by
      show decide (0 < db.transactions.countP
        (fun r => r.external_txn_id == some P)) = false
      rw [show db.transactions.countP (fun r => r.external_txn_id == some P) = 0
        from hc1]
      rfl
    have hdbR : (relink_pending_to_posted db P Q
        (map_plaid_transaction_to_db_fields aid t u)).1 = db := by
      have h0 : ∀ a ∈ db.transactions,
          relinkUpd (map_plaid_transaction_to_db_fields aid t u) db.now P Q a =
          id a := by
        intro a ha
        have hnp : (a.external_txn_id == some P) = false := by
          have := List.countP_eq_zero.mp
            (show db.transactions.countP (fun r => r.external_txn_id == some P) = 0
              from hc1) a ha
          exact Bool.not_eq_true _ ▸ Bool.eq_false_iff.mpr this
        simp only [relinkUpd, hnp, Bool.false_eq_true, if_false]
        rfl
      show ({ db with transactions := db.transactions.map (relinkUpd
        (map_plaid_transaction_to_db_fields aid t u) db.now P Q) } : DB) = db
      rw [List.map_congr_left h0, List.map_id]
    have hdQ : (map_plaid_transaction_to_db_fields aid t u).external_txn_id = some Q := hQ
    have hany0 : (db.transactions.any (fun r => r.external_txn_id == some Q)) = false := by
      apply Bool.eq_false_iff.mpr
      intro hcon
      obtain ⟨r, hr, hp⟩ := List.any_eq_true.mp hcon
      have := List.countP_eq_zero.mp
        (show db.transactions.countP (fun r => r.external_txn_id == some Q) = 0
          from hc2) r hr
      exact this hp
    have hup : upsert_transaction_added db (map_plaid_transaction_to_db_fields aid t u) =
        { db with
            transactions := db.transactions ++
              [{ id := db.nextTxnId
                 account_id := (map_plaid_transaction_to_db_fields aid t u).account_id
                 external_txn_id := some Q
                 amount := (map_plaid_transaction_to_db_fields aid t u).amount
                 currency := (map_plaid_transaction_to_db_fields aid t u).currency
                 type := (map_plaid_transaction_to_db_fields aid t u).type
                 merchant_name := (map_plaid_transaction_to_db_fields aid t u).merchant_name
                 description := (map_plaid_transaction_to_db_fields aid t u).description
                 category := (map_plaid_transaction_to_db_fields aid t u).category
                 authorized_date := (map_plaid_transaction_to_db_fields aid t u).authorized_date
                 posted_date := (map_plaid_transaction_to_db_fields aid t u).posted_date
                 pending := (map_plaid_transaction_to_db_fields aid t u).pending
                 original_payer_user_id := (map_plaid_transaction_to_db_fields aid t u).original_payer_user_id
                 deleted_at := none
                 created_at := db.now
                 updated_at := db.now }]
            nextTxnId := db.nextTxnId + 1 } := by
      unfold upsert_transaction_added
      rw [hdQ]
      dsimp only []
      rw [hany0]
      simp only [Bool.false_eq_true, if_false]
    have hone2 : processAdded1 u i t { db := db, opIdx := 0, failAt := none } k =
        .ok
          ({ db :=
               upsert_transaction_added
                 (relink_pending_to_posted db P Q
                   (map_plaid_transaction_to_db_fields aid t u)).1
                 (map_plaid_transaction_to_db_fields aid t u),
             opIdx := 0 + 1 + 1 + 1, failAt := none },
           { k with tx_added := k.tx_added + 1 }) := by
      unfold processAdded1
      rw [Conn.step_none { db := db, opIdx := 0, failAt := none } _ rfl]
      dsimp only []
      rw [hacct]
      dsimp only []
      rw [hP, hQ]
      dsimp only []
      rw [if_pos hne2]
      rw [Conn.step_none { db := db, opIdx := 0 + 1, failAt := none } _ rfl]
      dsimp only []
      rw [if_neg (by simp [hrel0])]
      unfold addedUpsertStep
      rw [Conn.step_none
        { db :=
            (relink_pending_to_posted db P Q
              (map_plaid_transaction_to_db_fields aid t u)).1,
          opIdx := 0 + 1 + 1, failAt := none } _ rfl]
    refine ⟨update_sync_cursor (upsert_transaction_added
        (relink_pending_to_posted db P Q
          (map_plaid_transaction_to_db_fields aid t u)).1
        (map_plaid_transaction_to_db_fields aid t u)) i nc,
      processPage_added1_eq u i t nc hmB db k _ _ hone2 rfl, ?_, ?_⟩
    · show (upsert_transaction_added (relink_pending_to_posted db P Q
        (map_plaid_transaction_to_db_fields aid t u)).1
        (map_plaid_transaction_to_db_fields aid t u)).transactions.length =
        db.transactions.length + 1
      rw [hdbR, hup]
      simp
    · show (upsert_transaction_added (relink_pending_to_posted db P Q
        (map_plaid_transaction_to_db_fields aid t u)).1
        (map_plaid_transaction_to_db_fields aid t u)).transactions.countP
          (fun r => r.external_txn_id == some Q) = 1
      rw [hdbR, hup]
      dsimp only []
      rw [List.countP_append]
      rw [show db.transactions.countP (fun r => r.external_txn_id == some Q) = 0
        from hc2]
      simp [List.countP_cons, hdQ]

theorem C1_witness :
    countExt dbC9 "E" = 1 ∧ countExt dbC9 "F" = 0 ∧
    (∃ db', processPage "u1" "i1" (addedPage txPosted (some "c9") false) dbC9
        none ⟨0, 0, 0⟩ = .ok (db', { tx_added := 0, tx_modified := 1, tx_removed := 0 }) ∧
      db'.transactions.length = dbC9.transactions.length ∧
      countExt db' "E" = 0 ∧ countExt db' "F" = 1 ∧
      (∀ r ∈ db'.transactions, (r.external_txn_id == some "F") = true →
        r.pending = false ∧
        r.amount = (map_plaid_transaction_to_db_fields "1" txPosted "u1").amount ∧
        r.currency = (map_plaid_transaction_to_db_fields "1" txPosted "u1").currency ∧
        r.type = (map_plaid_transaction_to_db_fields "1" txPosted "u1").type ∧
        r.merchant_name = (map_plaid_transaction_to_db_fields "1" txPosted "u1").merchant_name ∧
        r.description = (map_plaid_transaction_to_db_fields "1" txPosted "u1").description ∧
        r.category = (map_plaid_transaction_to_db_fields "1" txPosted "u1").category ∧
        r.authorized_date = (map_plaid_transaction_to_db_fields "1" txPosted "u1").authorized_date ∧
        r.posted_date = (map_plaid_transaction_to_db_fields "1" txPosted "u1").posted_date)) :=
  ⟨rfl, rfl,
    (C1_pending_posted_reconciliation "u1" "i1" txPosted dbC9 ⟨0, 0, 0⟩
      (some "c9") false "E" "F" "1" rfl rfl (by decide) (by decide) (by decide)
      rfl).1 rfl rfl⟩

theorem C9_witness :
    countExtLive dbC9 "E" = 1 ∧
    countExtLive (apply_transaction_removed dbC9 "u1" ["E"]).1 "E" = 0 ∧
    countExt (apply_transaction_removed dbC9 "u1" ["E"]).1 "E" = 1 ∧
    countExt (upsert_transaction_added
      (apply_transaction_removed dbC9 "u1" ["E"]).1 dataC9) "E" = 1 ∧
    countExtLive (upsert_transaction_added
      (apply_transaction_removed dbC9 "u1" ["E"]).1 dataC9) "E" = 1 ∧
    (upsert_transaction_added
      (apply_transaction_removed dbC9 "u1" ["E"]).1 dataC9).transactions.length =
      dbC9.transactions.length ∧
    (∀ t' ∈ (upsert_transaction_added
        (apply_transaction_removed dbC9 "u1" ["E"]).1 dataC9).transactions,
      (t'.external_txn_id == some "E") = true →
      t'.deleted_at = none ∧ t'.amount = dataC9.amount ∧ t'.pending = dataC9.pending ∧
      ∃ t0 ∈ dbC9.transactions, (t0.external_txn_id == some "E") = true ∧
        t'.id = t0.id) :=
  C9_soft_delete_reversible "u1" "E" dbC9 dataC9 (by decide) (by decide) rfl

/-- C3 (amended, spec-modelled): with the missing enumeration modelled from
the spec, and provided each per-item `sync_item` invocation completes (its
cursor-load unit does not raise and its pagination terminates), the
orchestrator returns exactly one summary per active item, in enumeration
order — failures that `sync_item` converts into error codes never prevent
subsequent items from being attempted. -/
theorem C3_spec_orchestrator_isolates_failures (client : PlaidClientModel)
    (u : String) (db : DB) (faults : String → FaultSpec) (fuel : Nat)
    (hok : ∀ it ∈ list_active_plaid_items_for_user_spec db u, ∀ d : DB,
      ∃ d' s tr, syncItem client it.id it.item_id u d (faults it.id) fuel =
        .outcomeOk d' s tr) :
    ∃ db' ss, syncAllItemsForUserSpec client u db faults fuel = .orOk db' ss ∧
      ss.length = (list_active_plaid_items_for_user_spec db u).length ∧
      ss.map (fun s => s.plaid_item_id) =
        (list_active_plaid_items_for_user_spec db u).map (fun it => it.item_id) := by
  obtain ⟨db', ss, hloop, hlen, hmap⟩ := syncItemsLoop_total client u faults fuel
    (list_active_plaid_items_for_user_spec db u) db [] hok
  refine ⟨db', ss, ?_, hlen, hmap⟩
  unfold syncAllItemsForUserSpec
  rw [hloop]
  simp

theorem C3_witness :
    (∃ db' ss, syncAllItemsForUserSpec clOrch "u1" exDB0 (fun _ => noFaults) 1 =
        .orOk db' ss ∧
      ss.length = 2 ∧
      ss.map (fun s => s.plaid_item_id) = ["itemX", "itemY"]) ∧
    (syncAllItemsForUserSpec clOrch "u1" exDB0 (fun _ => noFaults) 1).summaries.map
      (List.map (fun s => s.error_code)) = some [some "accounts_get_failed", none] := by
  refine ⟨?_, rfl⟩
  have hok : ∀ it ∈ list_active_plaid_items_for_user_spec exDB0 "u1", ∀ d : DB,
      ∃ d' s tr, syncItem clOrch it.id it.item_id "u1" d noFaults 1 =
        .outcomeOk d' s tr := by
    intro it hit d
    rcases List.mem_cons.mp hit with h | h
    · subst h
      exact ⟨d, _, [], rfl⟩
    · rcases List.mem_cons.mp h with h2 | h2
      · subst h2
        exact syncItem_ok_of_empty clOrch "i2" "itemY" "u1" d 0 [] rfl (fun _ => rfl)
      · cases h2
  obtain ⟨db', ss, hres, hlen, hmap⟩ :=
    C3_spec_orchestrator_isolates_failures clOrch "u1" exDB0 (fun _ => noFaults) 1 hok
  exact ⟨db', ss, hres, by rw [hlen]; rfl, by rw [hmap]; rfl⟩

end Chippr
